import Mathlib

/-!
# ArUco marker codec

A shallow embedding of `ArucoMarker` (file `aruco/src/ArucoMarker.cpp`): the 7x7 cell grid,
`calculateID`, `validate`, `rotate` and `hammingDistance`, and of the code around it:
`ArucoDetector::getMarkers` and `readArucoData`, the corner test of
`SquareFinder::findSquares`, `ArucoMarkerInfo::calculateWorldPoints` with
`Transformations::rotationMatrix`, and of `ros/ArucoNode.cpp` the registry callbacks,
`stringToDoubleArray` and the walk of the threshold block size;
followed by the properties proved about them.

Modelling conventions.
* `int cells[7][7]` is a function `Fin 7 → Fin 7 → Int`; every `Int` is allowed as a cell value,
  which covers every 32-bit value the array can hold.
* `vector<Point2f> projected` is a `List P` for an arbitrary point type `P`: the codec only
  permutes the points, it never reads their coordinates.
* `id <<= 1` is multiplication by two reduced to the 32-bit two's complement range (`wrap32`),
  `id |= c` is `Int.lor`.
* `rotation++` is `rotation + 1` reduced to the 32-bit two's complement range (`wrap32`): the
  source counter is an `int`, and at `INT_MAX` the increment yields `INT_MIN`.
* The accumulators `sum`, `minSum`, `dist` of `hammingDistance` and the counter `bad` of
  `validate` are never negative and stay below `100000`, they are natural numbers here.
* The field `info` (an `ArucoMarkerInfo`) is not read or written by the embedded methods and
  is left out of the marker record.
* Floating-point values (`float`, `double`) are elements of an ordered field, with exact
  arithmetic; the library functions `cos`, `sin` and `sqrt` are parameters.
* OpenCV image processing (`findContours`, `approxPolyDP`, `warpPerspective`, `threshold`)
  is not modelled: the functions that call it take its results as inputs.
* The `int` variables of the node (`theshold_block_size` and its bounds) are modelled on `Int`
  with every sum and difference reduced by `wrap32`, and with the truncating division and
  remainder of C++.
* A `std::string` is a `List Char`. In `stringToDoubleArray` the result of `find` is stored in
  an `unsigned int` (32 bits) and compared with `string::npos`, a `size_t`; the width of
  `size_t` is a parameter of the model (64 on LP64 platforms, 32 on ILP32 platforms).
-/

namespace Aruco

/-- The array `int cells[7][7]`. -/
abbrev Cells := Fin 7 → Fin 7 → Int

/-- The data members of `class ArucoMarker` (without `info`). -/
structure ArucoMarker (P : Type) where
  cells : Cells
  rows : Int
  cols : Int
  rotation : Int
  id : Int
  validated : Bool
  projected : List P

/-- Reduction of an integer to the range of a 32-bit two's complement `int`. -/
def wrap32 (x : Int) : Int := (x + 2147483648) % 4294967296 - 2147483648

/-- The table `int ids[4][5]` local to `hammingDistance`. -/
def ids : Fin 4 → Fin 5 → Int :=
  ![![1, 0, 0, 0, 0],
    ![1, 0, 1, 1, 1],
    ![0, 1, 0, 0, 1],
    ![0, 1, 1, 1, 0]]

/-- The innermost loop of `hammingDistance`: `sum` for row `i` of the grid against
`ids[j - 1]`, where the source's `j` runs over `1..4` and `k` over `1..5`; here `j` and `k`
are the table indices `j - 1` and `k - 1`, and the cell column is `k + 1`. -/
def rowSum (cells : Cells) (i : Fin 7) (j : Fin 4) : Nat :=
  ([0, 1, 2, 3, 4] : List (Fin 5)).foldl
    (fun sum k => sum + (if cells i k.succ.castSucc = ids j k then 0 else 1)) 0

/-- The middle loop of `hammingDistance`: `minSum` for row `i`, starting from `99999`. -/
def rowMinSum (cells : Cells) (i : Fin 7) : Nat :=
  ([0, 1, 2, 3] : List (Fin 4)).foldl
    (fun minSum j => if rowSum cells i j < minSum then rowSum cells i j else minSum) 99999

/-- The body of `ArucoMarker::hammingDistance` on the cell array: rows `1..5`. -/
def cellsHammingDistance (cells : Cells) : Nat :=
  ([1, 2, 3, 4, 5] : List (Fin 7)).foldl (fun dist i => dist + rowMinSum cells i) 0

/-- The value computed by the loop of `ArucoMarker::calculateID`, rows `1..5`. -/
def cellsID (cells : Cells) : Int :=
  ([1, 2, 3, 4, 5] : List (Fin 7)).foldl
    (fun id i => Int.lor (wrap32 (Int.lor (wrap32 (id * 2)) (cells i 2) * 2)) (cells i 4)) 0

/-- The two copy loops of `ArucoMarker::rotate`: `temp[i][j] = cells[n - j - 1][i]`
with `n = 7`, then `cells = temp`. -/
def rotateCells (cells : Cells) : Cells :=
  fun i j => cells ⟨7 - j.val - 1, by omega⟩ i

/-- The call `std::rotate(first, first + 1, last)`: the first element moves to the end.
On an empty vector `first + 1` is past the end (undefined in the source); the model leaves the
empty list as it is. -/
def stdRotate1 {P : Type} : List P → List P
  | [] => []
  | p :: ps => ps ++ [p]

/-- The condition of the border loop of `validate` at index `i`. -/
def borderBad (cells : Cells) (i : Fin 7) : Bool :=
  cells i 0 != 0 || cells i 6 != 0 || cells 0 i != 0 || cells 6 i != 0

/-- The border loop of `validate` over the remaining indices, with the counter `bad`;
`false` is the early `return false` taken when `bad > 3`, `true` is falling out of the loop. -/
def borderLoop (cells : Cells) : List (Fin 7) → Nat → Bool
  | [], _ => true
  | i :: rest, bad =>
    if borderBad cells i then
      if bad + 1 > 3 then false else borderLoop cells rest (bad + 1)
    else borderLoop cells rest bad

/-- The border loop of `validate` run from `i = 0` to `6` with `bad = 0`. -/
def borderCheck (cells : Cells) : Bool :=
  borderLoop cells [0, 1, 2, 3, 4, 5, 6] 0

namespace ArucoMarker

variable {P : Type}

/-- The constructor `ArucoMarker()` followed by filling the cells and the projected points,
as `readArucoData` and `getMarkers` do. -/
def fresh (cells : Cells) (projected : List P) : ArucoMarker P :=
  { cells := cells, rows := 5, cols := 5, rotation := 0, id := -1, validated := false,
    projected := projected }

/-- The method `ArucoMarker::hammingDistance`. -/
def hammingDistance (m : ArucoMarker P) : Nat := cellsHammingDistance m.cells

/-- The method `ArucoMarker::calculateID`: stores the identifier in `id` and returns it. -/
def calculateID (m : ArucoMarker P) : Int × ArucoMarker P :=
  (cellsID m.cells, { m with id := cellsID m.cells })

/-- The method `ArucoMarker::rotate`; the `int` counter `rotation` is incremented in 32-bit
two's complement arithmetic. -/
def rotate (m : ArucoMarker P) : ArucoMarker P :=
  { m with cells := rotateCells m.cells, rotation := wrap32 (m.rotation + 1),
           projected := stdRotate1 m.projected }

/-- The Hamming loop of `validate` with `n` iterations left (`j = 4 - n`). -/
def validateLoop : Nat → ArucoMarker P → Bool × ArucoMarker P
  | 0, m => (false, m)
  | n + 1, m =>
    if m.hammingDistance = 0 then
      (true, { (m.calculateID).2 with validated := true })
    else validateLoop n m.rotate

/-- The method `ArucoMarker::validate`: the returned flag and the marker after the call. -/
def validate (m : ArucoMarker P) : Bool × ArucoMarker P :=
  let m0 := { m with validated := false }
  if m0.projected.length = 0 then (false, m0)
  else if borderCheck m0.cells = false then (false, m0)
  else validateLoop 4 m0

end ArucoMarker

/-- The value of bit `n` of `id`, as `0` or `1`. -/
def idBit (id n : Nat) : Nat := id / 2 ^ n % 2

/-- The row of `ids` whose payload cells (columns 2 and 4) are bits `2 * (5 - r) + 1` and
`2 * (5 - r)` of `id`: the four rows of `ids` carry the payload pairs `00`, `01`, `10`, `11`
in this order, so it is row `2 * b2 + b4`. -/
def codewordIndex (id r : Nat) : Fin 4 :=
  ⟨(2 * idBit id (2 * (5 - r) + 1) + idBit id (2 * (5 - r))) % 4, Nat.mod_lt _ (by decide)⟩

/-- The canonical grid of an identifier, following the description of the round-trip
property: the 24 border cells are `0`; in interior row `r` the payload bits are bits
`2 * (5 - r) + 1` and `2 * (5 - r)` of `id`, and columns `1..5` hold the reference codeword
with those payload bits. -/
def canonicalGrid (id : Nat) : Cells :=
  fun r c =>
    if r.val = 0 ∨ r.val = 6 ∨ c.val = 0 ∨ c.val = 6 then 0
    else ids (codewordIndex id r.val) ⟨(c.val - 1) % 5, Nat.mod_lt _ (by decide)⟩

/-- Row `i` of the grid is a reference codeword, written on its cells. -/
def RowOK (c : Cells) (i : Fin 7) : Prop :=
  (c i 2 = 0 ∨ c i 2 = 1) ∧ (c i 4 = 0 ∨ c i 4 = 1) ∧ c i 1 = 1 - c i 2 ∧ c i 3 = c i 4 ∧
    c i 5 = (c i 2 + c i 4) % 2

/-- The interior of the grid is the pattern of identifier 1023: every interior row is
`0, 1, 1, 1, 0`. -/
def Pattern1023 (c : Cells) : Prop :=
  ∀ i : Fin 7, i.val ≠ 0 → i.val ≠ 6 →
    c i 1 = 0 ∧ c i 2 = 1 ∧ c i 3 = 1 ∧ c i 4 = 1 ∧ c i 5 = 0

/-- All 24 border cells (row 0, row 6, column 0, column 6) are zero. -/
def BorderZero (c : Cells) : Prop :=
  ∀ i j : Fin 7, (i.val = 0 ∨ i.val = 6 ∨ j.val = 0 ∨ j.val = 6) → c i j = 0

/-- The 24 border positions of the grid: row 0, row 6, column 0, column 6. -/
def borderCells : List (Fin 7 × Fin 7) :=
  [(0, 0), (0, 1), (0, 2), (0, 3), (0, 4), (0, 5), (0, 6),
   (6, 0), (6, 1), (6, 2), (6, 3), (6, 4), (6, 5), (6, 6),
   (1, 0), (2, 0), (3, 0), (4, 0), (5, 0),
   (1, 6), (2, 6), (3, 6), (4, 6), (5, 6)]

/-- The number of non-zero (white) cells among the 24 border cells. -/
def whiteBorderCount (c : Cells) : Nat :=
  (borderCells.filter (fun p => c p.1 p.2 != 0)).length

/-- The grid `c` with the cells at the listed positions set to `1`. -/
def setWhite (c : Cells) (ps : List (Fin 7 × Fin 7)) : Cells :=
  fun i j => if (i, j) ∈ ps then 1 else c i j

/-- The grid `c` with the 0/1 cell at row `i`, column `j` flipped. -/
def flipCell (c : Cells) (i j : Fin 7) : Cells :=
  fun a b => if a = i ∧ b = j then 1 - c a b else c a b

/-- The grid cell under corner `c` of the quad, from the destination points of `deformQuad`:
`(0, 0)`, `(0, rows)`, `(cols, rows)`, `(cols, 0)` as `(x, y)`, that is the cells
`(row, column)` = `(0, 0)`, `(6, 0)`, `(6, 6)`, `(0, 6)` of the 7x7 grid. -/
def cornerCell : Fin 4 → Fin 7 × Fin 7 :=
  ![(0, 0), (6, 0), (6, 6), (0, 6)]

/-- The number of positions in which rows `a` and `b` of the table `ids` differ. -/
def codewordDistance (a b : Fin 4) : Nat :=
  ([0, 1, 2, 3, 4] : List (Fin 5)).foldl
    (fun sum k => sum + (if ids a k = ids b k then 0 else 1)) 0

/-- A single-channel 8-bit `cv::Mat` with continuous storage, as `threshold` produces:
`rows`, `cols` and the byte buffer `data`. -/
structure Mat where
  rows : Nat
  cols : Nat
  data : Nat → Nat

/-- The pixel at row `r` (downward), column `c` (rightward) of a continuous single-channel
matrix: `data[r * cols + c]`. -/
def Mat.pixel (binary : Mat) (r c : Nat) : Nat := binary.data (r * binary.cols + c)

/-- The assignment `cells[r][c] = v` on the array `int cells[7][7]`; `none` when an index is
outside the array. -/
def writeCell (cells : Cells) (r c : Nat) (v : Int) : Option Cells :=
  if h : r < 7 ∧ c < 7 then
    some (fun a b => if a = ⟨r, h.1⟩ ∧ b = ⟨c, h.2⟩ then v else cells a b)
  else none

namespace ArucoDetector

/-- The loop of `readArucoData` over the remaining indices `i`:
`marker.cells[i / binary.cols][i % binary.cols] = (binary.data[i] == 255)`. -/
def readArucoDataLoop (binary : Mat) : List Nat → Cells → Option Cells
  | [], cells => some cells
  | i :: rest, cells =>
    match writeCell cells (i / binary.cols) (i % binary.cols)
        (if binary.data i = 255 then 1 else 0) with
    | none => none
    | some cells1 => readArucoDataLoop binary rest cells1

/-- The function `ArucoDetector::readArucoData`: a marker from `ArucoMarker()`, whose cell
array starts with the unspecified content `init`, filled by the loop over
`i < binary.cols * binary.rows`; `none` when a write falls outside the cell array. -/
def readArucoData {P : Type} (binary : Mat) (init : Cells) : Option (ArucoMarker P) :=
  (readArucoDataLoop binary (List.range (binary.cols * binary.rows)) init).map
    (fun cells => ArucoMarker.fresh cells [])

end ArucoDetector

namespace ArucoDetector

/-- The loop of `getMarkers` over the candidate quads, the per-quad image processing
(`deformQuad`, `processArucoImage`, `readArucoData`) being given by its result: a candidate
is the point sequence `quads[i].points` with the cell array read for that quad. The marker
is built as in the source, validated, and pushed back when `validate` returns `true`. -/
def getMarkersLoop {P : Type} :
    List (List P × Cells) → List (ArucoMarker P) → List (ArucoMarker P)
  | [], markers => markers
  | (points, cells) :: rest, markers =>
    if (ArucoMarker.validate (ArucoMarker.fresh cells points)).1 then
      getMarkersLoop rest
        (markers ++ [(ArucoMarker.validate (ArucoMarker.fresh cells points)).2])
    else getMarkersLoop rest markers

/-- The function `ArucoDetector::getMarkers` on the list of candidates. -/
def getMarkers {P : Type} (candidates : List (List P × Cells)) : List (ArucoMarker P) :=
  getMarkersLoop candidates []

end ArucoDetector

namespace ArucoNode

/-- The search loop shared by `onMarkerRegister` and `onMarkerRemove` on the vector `known`:
the first entry whose id equals `id` is erased and the loop stops (`break`). An entry is the
id with the remaining content `D` of its `ArucoMarkerInfo`. -/
def eraseFirstId {D : Type} (id : Int) : List (Int × D) → List (Int × D)
  | [] => []
  | e :: rest => if e.1 = id then rest else e :: eraseFirstId id rest

/-- The callback `onMarkerRegister`: the search loop, then `known.push_back` of the new
entry built from the message. -/
def onMarkerRegister {D : Type} (known : List (Int × D)) (id : Int) (data : D) :
    List (Int × D) :=
  eraseFirstId id known ++ [(id, data)]

/-- The callback `onMarkerRemove`: the search loop alone. -/
def onMarkerRemove {D : Type} (known : List (Int × D)) (id : Int) : List (Int × D) :=
  eraseFirstId id known

/-- A message received on the register topic or on the remove topic. -/
inductive RegistryCall (D : Type) where
  | register (id : Int) (data : D)
  | remove (id : Int)

/-- The effect of one callback on `known`. -/
def applyCall {D : Type} (known : List (Int × D)) : RegistryCall D → List (Int × D)
  | .register id data => onMarkerRegister known id data
  | .remove id => onMarkerRemove known id

/-- The effect of a sequence of callbacks on `known`, in order of arrival. -/
def applyCalls {D : Type} (known : List (Int × D)) (calls : List (RegistryCall D)) :
    List (Int × D) :=
  calls.foldl applyCall known

end ArucoNode

/-- A point `Point3d` / `Point3f` with coordinates in the field `F` (exact arithmetic in
place of floating point). -/
structure Point3 (F : Type) where
  x : F
  y : F
  z : F

/-- The data members of `class ArucoMarkerInfo`. -/
structure ArucoMarkerInfo (F : Type) where
  id : Int
  size : F
  position : Point3 F
  rotation : Point3 F
  world : List (Point3 F)

namespace Transformations

/-- The function `Transformations::rotationMatrix`; the library functions `cos` and `sin`
are parameters. -/
def rotationMatrix {F : Type} [Field F] (cos sin : F → F) (euler : Point3 F) :
    Matrix (Fin 3) (Fin 3) F :=
  let rx : Matrix (Fin 3) (Fin 3) F :=
    !![1, 0, 0;
       0, cos euler.x, -sin euler.x;
       0, sin euler.x, cos euler.x]
  let ry : Matrix (Fin 3) (Fin 3) F :=
    !![cos euler.y, 0, sin euler.y;
       0, 1, 0;
       -sin euler.y, 0, cos euler.y]
  let rz : Matrix (Fin 3) (Fin 3) F :=
    !![cos euler.z, -sin euler.z, 0;
       sin euler.z, cos euler.z, 0;
       0, 0, 1]
  rz * ry * rx

end Transformations

namespace ArucoMarkerInfo

/-- The method `ArucoMarkerInfo::calculateWorldPoints`: the four corners of the
size-centred square are pushed, then each is replaced by its image under the rotation
matrix with the position added in `x` and `y` and subtracted in `z`. -/
def calculateWorldPoints {F : Type} [Field F] (cos sin : F → F) (info : ArucoMarkerInfo F) :
    ArucoMarkerInfo F :=
  let half := info.size / 2
  let world : List (Point3 F) :=
    [⟨-half, -half, 0⟩, ⟨-half, half, 0⟩, ⟨half, half, 0⟩, ⟨half, -half, 0⟩]
  let rot := Transformations.rotationMatrix cos sin info.rotation
  { info with
    world := world.map (fun w =>
      let temp : Matrix (Fin 3) (Fin 1) F := !![w.x; w.y; w.z]
      let transf := rot * temp
      ⟨transf 0 0 + info.position.x, transf 1 0 + info.position.y,
        transf 2 0 - info.position.z⟩) }

end ArucoMarkerInfo

namespace SquareFinder

/-- The macro `MAX(a, b)` of OpenCV, `((a) < (b) ? (b) : (a))`. -/
def MAX {F : Type} [LinearOrder F] (a b : F) : F := if a < b then b else a

/-- The element `approx[n]` of the 4-vertex polygon `approx`, for `n` in `0..3`. -/
def vertexAt {Pt : Type} (approx : Fin 4 → Pt) (n : Nat) : Pt := approx (Fin.ofNat n)

/-- The corner loop of `findSquares` over the remaining values of `j`:
`cosine = fabs(angleCornerPointsCos(approx[j%4], approx[j-2], approx[j-1]))`,
`maxCosine = MAX(maxCosine, cosine)`. The value returned by `angleCornerPointsCos`, a
floating-point quotient by a square root, is a parameter with values in an ordered
field `F`. -/
def cornerLoop {Pt F : Type} [LinearOrderedField F] (angleCornerPointsCos : Pt → Pt → Pt → F)
    (approx : Fin 4 → Pt) : List Nat → F → F
  | [], maxCosine => maxCosine
  | j :: rest, maxCosine =>
    cornerLoop angleCornerPointsCos approx rest
      (MAX maxCosine
        (abs (angleCornerPointsCos (vertexAt approx (j % 4)) (vertexAt approx (j - 2))
          (vertexAt approx (j - 1)))))

/-- The corner test of `findSquares` on a polygon that has 4 vertices, enough area and is
convex: `maxCosine = 0`, the loop `for(int j = 2; j < 5; j++)`, then
`maxCosine < limitCosine`; `true` when the quad is pushed to `squares`. -/
def keepsQuad {Pt F : Type} [LinearOrderedField F] (angleCornerPointsCos : Pt → Pt → Pt → F)
    (approx : Fin 4 → Pt) (limitCosine : F) : Bool :=
  decide (cornerLoop angleCornerPointsCos approx [2, 3, 4] 0 < limitCosine)

/-- The function `angleCornerPointsCos` on integer points, in exact arithmetic: the square
root and the constant `1e-12` added under it are parameters. -/
def angleCornerPointsCos {F : Type} [Field F] (sqrt : F → F) (eps : F) (b c a : Int × Int) : F :=
  let dx1 : F := ((b.1 - a.1 : Int) : F)
  let dy1 : F := ((b.2 - a.2 : Int) : F)
  let dx2 : F := ((c.1 - a.1 : Int) : F)
  let dy2 : F := ((c.2 - a.2 : Int) : F)
  (dx1 * dx2 + dy1 * dy2) / sqrt ((dx1 * dx1 + dy1 * dy1) * (dx2 * dx2 + dy2 * dy2) + eps)

end SquareFinder

/-- A convex quad of area 528 with a sharp corner at its first vertex: the kite
`(0,12)`, `(35,24)`, `(44,12)`, `(35,0)`, whose sides have lengths 37, 15, 15, 37. -/
def kite : Fin 4 → Int × Int :=
  ![(0, 12), (35, 24), (44, 12), (35, 0)]

/-- The cosine `(dx1*dx2 + dy1*dy2) / sqrt((dx1² + dy1²) * (dx2² + dy2²))` at the corner `a` of
`kite` between its two neighbours: `1081 / (37 * 37)` at `(0,12)`, `-63 / (15 * 15)` at
`(44,12)` and `-171 / (37 * 15)` at the other two corners. -/
def kiteCos (_b _c a : Int × Int) : ℚ :=
  if a = (0, 12) then 1081 / 1369
  else if a = (44, 12) then -63 / 225
  else -171 / 555

namespace ArucoNode

end ArucoNode

/-- The grids with one flipped cell in row `i` whose half turn has distance zero: every
other interior row is `0, 1, 1, 1, 0` and row `i` is `0, 0, 0, 0, 1` or `1, 0, 0, 1, 0`
(the codewords `0, 1, 0, 0, 1` and `1, 0, 0, 0, 0` with one cell flipped, which read
backwards are codewords again). -/
def HalfTurnException (c : Cells) (i : Fin 7) : Prop :=
  (∀ r : Fin 7, r.val ≠ 0 → r.val ≠ 6 → r ≠ i →
    c r 1 = 0 ∧ c r 2 = 1 ∧ c r 3 = 1 ∧ c r 4 = 1 ∧ c r 5 = 0) ∧
  ((c i 1 = 0 ∧ c i 2 = 0 ∧ c i 3 = 0 ∧ c i 4 = 0 ∧ c i 5 = 1) ∨
    (c i 1 = 1 ∧ c i 2 = 0 ∧ c i 3 = 0 ∧ c i 4 = 1 ∧ c i 5 = 0))

/-- Row `i` of the grid read backwards (columns 5 down to 1) is a reference codeword,
written on its cells. -/
def RowRevOK (c : Cells) (i : Fin 7) : Prop :=
  (c i 4 = 0 ∨ c i 4 = 1) ∧ (c i 2 = 0 ∨ c i 2 = 1) ∧ c i 5 = 1 - c i 4 ∧ c i 3 = c i 2 ∧
    c i 1 = (c i 4 + c i 2) % 2

namespace ArucoNode

/-- The call `data.find(delimiter)` of `std::string`: the position of the first occurrence
of `delimiter` in `data`, `none` for `string::npos`. -/
def stringFind (delimiter : List Char) : List Char → Option Nat
  | [] => if delimiter = [] then some 0 else none
  | c :: cs =>
    if delimiter.isPrefixOf (c :: cs) then some 0
    else (stringFind delimiter cs).map (fun p => p + 1)

/-- The loop of `stringToDoubleArray` with `fuel = count - k` iterations left.
The result of `find` is a `size_t` of `sizeBits` bits (`string::npos` is `2 ^ sizeBits - 1`)
and is stored in `unsigned int pos`, 32 bits wide; the loop test compares the stored `pos`
with `string::npos`. `substr(0, pos)` and `erase(0, n)` stop at the end of the string.
The library function `stod` is a parameter, `none` when it throws; `values` is the array
`double* values` as a list, written at index `k < count`. -/
def stringToDoubleArrayLoop {D : Type} (sizeBits : Nat) (stod : List Char → Option D)
    (delimiter : List Char) : Nat → List Char → Nat → List D → Option (List D)
  | 0, _, _, values => some values
  | fuel + 1, data, k, values =>
    if (match stringFind delimiter data with
        | some p => p
        | none => 2 ^ sizeBits - 1) % 2 ^ 32 = 2 ^ sizeBits - 1 then some values
    else
      match stod (data.take ((match stringFind delimiter data with
          | some p => p
          | none => 2 ^ sizeBits - 1) % 2 ^ 32)) with
      | none => none
      | some v =>
        stringToDoubleArrayLoop sizeBits stod delimiter fuel
          (data.drop (((match stringFind delimiter data with
              | some p => p
              | none => 2 ^ sizeBits - 1) % 2 ^ 32 + delimiter.length) % 2 ^ sizeBits))
          (k + 1) (values.set k v)

/-- The function `stringToDoubleArray(data, values, count, delimiter)`: the array after the
call, `none` when `stod` throws. -/
def stringToDoubleArray {D : Type} (sizeBits : Nat) (stod : List Char → Option D)
    (data : List Char) (values : List D) (count : Nat) (delimiter : List Char) :
    Option (List D) :=
  stringToDoubleArrayLoop sizeBits stod delimiter count data 0 values

/-- The function `stod` on strings of decimal digits: their value; on every other string
(the empty one included) it is treated as throwing. -/
def stodDigits (token : List Char) : Option Nat :=
  if token ≠ [] ∧ token.all Char.isDigit then
    some (token.foldl (fun acc ch => 10 * acc + (ch.toNat - 48)) 0)
  else none

end ArucoNode

/-! ## Auxiliary lemmas -/

theorem rowSum_eq_zero_iff (c : Cells) (i : Fin 7) (j : Fin 4) :
    rowSum c i j = 0 ↔
      c i 1 = ids j 0 ∧ c i 2 = ids j 1 ∧ c i 3 = ids j 2 ∧ c i 4 = ids j 3 ∧ c i 5 = ids j 4 := by
  have e1 : ((0 : Fin 5).succ.castSucc : Fin 7) = 1 := rfl
  have e2 : ((1 : Fin 5).succ.castSucc : Fin 7) = 2 := rfl
  have e3 : ((2 : Fin 5).succ.castSucc : Fin 7) = 3 := rfl
  have e4 : ((3 : Fin 5).succ.castSucc : Fin 7) = 4 := rfl
  have e5 : ((4 : Fin 5).succ.castSucc : Fin 7) = 5 := rfl
  simp only [rowSum, List.foldl, e1, e2, e3, e4, e5]
  constructor
  · intro h
    split_ifs at h
    all_goals omega
  · rintro ⟨h1, h2, h3, h4, h5⟩
    simp [h1, h2, h3, h4, h5]

theorem rowMinSum_eq_zero_iff (c : Cells) (i : Fin 7) :
    rowMinSum c i = 0 ↔ ∃ j, rowSum c i j = 0 := by
  simp only [rowMinSum, List.foldl]
  constructor
  · intro h
    by_contra hne
    push_neg at hne
    have h0 := hne 0
    have h1 := hne 1
    have h2 := hne 2
    have h3 := hne 3
    split_ifs at h <;> omega
  · rintro ⟨j, hj⟩
    fin_cases j <;> simp only [Fin.zero_eta, Fin.mk_one, Fin.reduceFinMk] at hj <;>
      split_ifs <;> omega

theorem cellsHammingDistance_eq_zero_iff (c : Cells) :
    cellsHammingDistance c = 0 ↔
      rowMinSum c 1 = 0 ∧ rowMinSum c 2 = 0 ∧ rowMinSum c 3 = 0 ∧ rowMinSum c 4 = 0 ∧
        rowMinSum c 5 = 0 := by
  simp only [cellsHammingDistance, List.foldl]
  omega

theorem ids_values :
    (ids 0 0 = 1 ∧ ids 0 1 = 0 ∧ ids 0 2 = 0 ∧ ids 0 3 = 0 ∧ ids 0 4 = 0) ∧
    (ids 1 0 = 1 ∧ ids 1 1 = 0 ∧ ids 1 2 = 1 ∧ ids 1 3 = 1 ∧ ids 1 4 = 1) ∧
    (ids 2 0 = 0 ∧ ids 2 1 = 1 ∧ ids 2 2 = 0 ∧ ids 2 3 = 0 ∧ ids 2 4 = 1) ∧
    (ids 3 0 = 0 ∧ ids 3 1 = 1 ∧ ids 3 2 = 1 ∧ ids 3 3 = 1 ∧ ids 3 4 = 0) := by
  decide

theorem rowMinSum_eq_zero_iff_rowOK (c : Cells) (i : Fin 7) :
    rowMinSum c i = 0 ↔ RowOK c i := by
  obtain ⟨⟨a0, a1, a2, a3, a4⟩, ⟨b0, b1, b2, b3, b4⟩, ⟨c0, c1, c2, c3, c4⟩,
    ⟨d0, d1, d2, d3, d4⟩⟩ := ids_values
  rw [rowMinSum_eq_zero_iff]
  unfold RowOK
  constructor
  · rintro ⟨j, hj⟩
    rw [rowSum_eq_zero_iff] at hj
    fin_cases j <;> simp only [Fin.zero_eta, Fin.mk_one, Fin.reduceFinMk] at hj
    · rw [a0, a1, a2, a3, a4] at hj; omega
    · rw [b0, b1, b2, b3, b4] at hj; omega
    · rw [c0, c1, c2, c3, c4] at hj; omega
    · rw [d0, d1, d2, d3, d4] at hj; omega
  · rintro ⟨h2, h4, h1, h3, h5⟩
    rcases h2 with h2 | h2 <;> rcases h4 with h4 | h4
    · exact ⟨0, (rowSum_eq_zero_iff c i 0).2 (by rw [a0, a1, a2, a3, a4]; omega)⟩
    · exact ⟨1, (rowSum_eq_zero_iff c i 1).2 (by rw [b0, b1, b2, b3, b4]; omega)⟩
    · exact ⟨2, (rowSum_eq_zero_iff c i 2).2 (by rw [c0, c1, c2, c3, c4]; omega)⟩
    · exact ⟨3, (rowSum_eq_zero_iff c i 3).2 (by rw [d0, d1, d2, d3, d4]; omega)⟩

theorem cellsHammingDistance_eq_zero_iff_rowOK (c : Cells) :
    cellsHammingDistance c = 0 ↔ RowOK c 1 ∧ RowOK c 2 ∧ RowOK c 3 ∧ RowOK c 4 ∧ RowOK c 5 := by
  rw [cellsHammingDistance_eq_zero_iff]
  simp only [rowMinSum_eq_zero_iff_rowOK]

theorem rotateCells_iterate_four (c : Cells) : rotateCells^[4] c = c := by
  funext i j
  show rotateCells (rotateCells (rotateCells (rotateCells c))) i j = c i j
  simp only [rotateCells]
  have hi : (⟨7 - (⟨7 - i.val - 1, by omega⟩ : Fin 7).val - 1, by omega⟩ : Fin 7) = i := by
    apply Fin.ext; simp only []; omega
  have hj : (⟨7 - (⟨7 - j.val - 1, by omega⟩ : Fin 7).val - 1, by omega⟩ : Fin 7) = j := by
    apply Fin.ext; simp only []; omega
  rw [hi, hj]

theorem not_zero_rotate_of_zero (c : Cells) (h : cellsHammingDistance c = 0) :
    cellsHammingDistance (rotateCells c) ≠ 0 := by
  intro h1
  rw [cellsHammingDistance_eq_zero_iff_rowOK] at h h1
  obtain ⟨-, -, -, r4, r5⟩ := h
  obtain ⟨-, s2, -, s4, s5⟩ := h1
  unfold RowOK at r4 r5 s2 s4 s5
  have e1 : rotateCells c 2 1 = c 5 2 := rfl
  have e2 : rotateCells c 2 2 = c 4 2 := rfl
  have e3 : rotateCells c 4 1 = c 5 4 := rfl
  have e4 : rotateCells c 4 2 = c 4 4 := rfl
  have e5 : rotateCells c 5 1 = c 5 5 := rfl
  have e6 : rotateCells c 5 2 = c 4 5 := rfl
  rw [e1, e2] at s2
  rw [e3, e4] at s4
  rw [e5, e6] at s5
  omega

theorem wrap32_of_range (x : Int) (h0 : -2147483648 ≤ x) (h1 : x < 2147483648) : wrap32 x = x := by
  unfold wrap32
  omega

theorem lor_bit_step (x b : Int) (hx0 : 0 ≤ x) (hx1 : x < 1073741824) (hb : b = 0 ∨ b = 1) :
    Int.lor (wrap32 (x * 2)) b = 2 * x + b := by
  rw [wrap32_of_range _ (by omega) (by omega)]
  obtain ⟨n, rfl⟩ := Int.eq_ofNat_of_zero_le hx0
  have key : ∀ k : Nat, k < 2 → Int.lor ((n : Int) * 2) (k : Int) = 2 * (n : Int) + (k : Int) := by
    intro k hk
    have h2 : ((n : Int) * 2) = ((2 ^ 1 * n : Nat) : Int) := by push_cast; ring
    rw [h2]
    show ((((2 ^ 1 * n) ||| k : Nat)) : Int) = _
    rw [← Nat.mul_add_lt_is_or (by simpa using hk) n]
    push_cast
    ring
  rcases hb with rfl | rfl
  · exact key 0 (by decide)
  · exact key 1 (by decide)

theorem id_row_step (x a b : Int) (hx0 : 0 ≤ x) (hx1 : x < 1048576) (ha : a = 0 ∨ a = 1)
    (hb : b = 0 ∨ b = 1) :
    Int.lor (wrap32 (Int.lor (wrap32 (x * 2)) a * 2)) b = 4 * x + 2 * a + b := by
  rw [lor_bit_step x a hx0 (by omega) ha, lor_bit_step (2 * x + a) b (by omega) (by omega) hb]
  ring

theorem cellsID_eq (c : Cells)
    (h : ∀ i : Fin 7, i.val ≠ 0 → i.val ≠ 6 →
      (c i 2 = 0 ∨ c i 2 = 1) ∧ (c i 4 = 0 ∨ c i 4 = 1)) :
    cellsID c = c 1 2 * 512 + c 1 4 * 256 + c 2 2 * 128 + c 2 4 * 64 + c 3 2 * 32 + c 3 4 * 16
      + c 4 2 * 8 + c 4 4 * 4 + c 5 2 * 2 + c 5 4 := by
  have h1 := h 1 (by decide) (by decide)
  have h2 := h 2 (by decide) (by decide)
  have h3 := h 3 (by decide) (by decide)
  have h4 := h 4 (by decide) (by decide)
  have h5 := h 5 (by decide) (by decide)
  have b1 : (0 : Int) ≤ 4 * 0 + 2 * c 1 2 + c 1 4 ∧ 4 * 0 + 2 * c 1 2 + c 1 4 < 4 := by omega
  have b2 : (0 : Int) ≤ 4 * (4 * 0 + 2 * c 1 2 + c 1 4) + 2 * c 2 2 + c 2 4 ∧
      4 * (4 * 0 + 2 * c 1 2 + c 1 4) + 2 * c 2 2 + c 2 4 < 16 := by omega
  have b3 : (0 : Int) ≤ 4 * (4 * (4 * 0 + 2 * c 1 2 + c 1 4) + 2 * c 2 2 + c 2 4) + 2 * c 3 2
      + c 3 4 ∧
      4 * (4 * (4 * 0 + 2 * c 1 2 + c 1 4) + 2 * c 2 2 + c 2 4) + 2 * c 3 2 + c 3 4 < 64 := by
    omega
  have b4 : (0 : Int) ≤ 4 * (4 * (4 * (4 * 0 + 2 * c 1 2 + c 1 4) + 2 * c 2 2 + c 2 4)
      + 2 * c 3 2 + c 3 4) + 2 * c 4 2 + c 4 4 ∧
      4 * (4 * (4 * (4 * 0 + 2 * c 1 2 + c 1 4) + 2 * c 2 2 + c 2 4) + 2 * c 3 2 + c 3 4)
        + 2 * c 4 2 + c 4 4 < 256 := by
    omega
  have e1 := id_row_step 0 (c 1 2) (c 1 4) (le_refl 0) (by decide) h1.1 h1.2
  have e2 := id_row_step _ (c 2 2) (c 2 4) b1.1 (lt_trans b1.2 (by decide)) h2.1 h2.2
  have e3 := id_row_step _ (c 3 2) (c 3 4) b2.1 (lt_trans b2.2 (by decide)) h3.1 h3.2
  have e4 := id_row_step _ (c 4 2) (c 4 4) b3.1 (lt_trans b3.2 (by decide)) h4.1 h4.2
  have e5 := id_row_step _ (c 5 2) (c 5 4) b4.1 (lt_trans b4.2 (by decide)) h5.1 h5.2
  simp only [cellsID, List.foldl, e1, e2, e3, e4, e5]
  ring

section MarkerLemmas

variable {P : Type}

theorem rotate_iterate_cells (k : Nat) (m : ArucoMarker P) :
    (ArucoMarker.rotate^[k] m).cells = rotateCells^[k] m.cells := by
  induction k with
  | zero => rfl
  | succ n ih =>
    rw [Function.iterate_succ_apply', Function.iterate_succ_apply', ← ih]
    rfl

theorem rotate_iterate_rotation (k : Nat) (m : ArucoMarker P) :
    (ArucoMarker.rotate^[k] m).rotation = (fun r : Int => wrap32 (r + 1))^[k] m.rotation := by
  induction k with
  | zero => rfl
  | succ n ih =>
    rw [Function.iterate_succ_apply', Function.iterate_succ_apply', ← ih]
    rfl

/-- Below `INT_MAX` the 32-bit increment is the increment: `k` of them add `k` to a counter
`r` in the `int` range with `r + k ≤ INT_MAX`. -/
theorem wrap32_incr_iterate (k : Nat) (r : Int) (hlo : -2147483648 ≤ r)
    (hhi : r + k ≤ 2147483647) : (fun r : Int => wrap32 (r + 1))^[k] r = r + k := by
  induction k with
  | zero => simp
  | succ n ih =>
    have hn : r + (n : Int) ≤ 2147483647 := by push_cast at hhi; omega
    rw [Function.iterate_succ_apply', ih hn]
    show wrap32 (r + n + 1) = _
    unfold wrap32
    push_cast at hhi ⊢
    omega

theorem rotate_iterate_projected (k : Nat) (m : ArucoMarker P) :
    (ArucoMarker.rotate^[k] m).projected = stdRotate1^[k] m.projected := by
  induction k with
  | zero => rfl
  | succ n ih =>
    rw [Function.iterate_succ_apply', Function.iterate_succ_apply', ← ih]
    rfl

theorem rotate_iterate_frame (k : Nat) (m : ArucoMarker P) :
    (ArucoMarker.rotate^[k] m).rows = m.rows ∧ (ArucoMarker.rotate^[k] m).cols = m.cols ∧
      (ArucoMarker.rotate^[k] m).id = m.id ∧
      (ArucoMarker.rotate^[k] m).validated = m.validated := by
  induction k with
  | zero => simp
  | succ n ih =>
    rw [Function.iterate_succ_apply']
    exact ih

/-- The Hamming loop stops at the first rotation state with distance zero. -/
theorem validateLoop_found (n k : Nat) (m : ArucoMarker P) (hk : k < n)
    (h0 : cellsHammingDistance (rotateCells^[k] m.cells) = 0)
    (hlt : ∀ j, j < k → cellsHammingDistance (rotateCells^[j] m.cells) ≠ 0) :
    ArucoMarker.validateLoop n m =
      (true, { ArucoMarker.rotate^[k] m with
                id := cellsID (rotateCells^[k] m.cells), validated := true }) := by
  induction n generalizing k m with
  | zero => omega
  | succ n ih =>
    cases k with
    | zero =>
      simp only [Function.iterate_zero, id_eq] at h0 ⊢
      simp [ArucoMarker.validateLoop, ArucoMarker.hammingDistance, h0, ArucoMarker.calculateID]
    | succ k =>
      have hne : cellsHammingDistance m.cells ≠ 0 := hlt 0 (Nat.succ_pos k)
      have step : ArucoMarker.validateLoop (n + 1) m = ArucoMarker.validateLoop n m.rotate := by
        simp [ArucoMarker.validateLoop, ArucoMarker.hammingDistance, hne]
      rw [step, Function.iterate_succ_apply, Function.iterate_succ_apply]
      refine ih k m.rotate (by omega) ?_ ?_
      · exact h0
      · intro j hj
        have := hlt (j + 1) (by omega)
        rwa [Function.iterate_succ_apply] at this

/-- The Hamming loop falls through when no rotation state has distance zero. -/
theorem validateLoop_none (n : Nat) (m : ArucoMarker P)
    (h : ∀ j, j < n → cellsHammingDistance (rotateCells^[j] m.cells) ≠ 0) :
    ArucoMarker.validateLoop n m = (false, ArucoMarker.rotate^[n] m) := by
  induction n generalizing m with
  | zero => rfl
  | succ n ih =>
    have hne : cellsHammingDistance m.cells ≠ 0 := h 0 (Nat.succ_pos n)
    have step : ArucoMarker.validateLoop (n + 1) m = ArucoMarker.validateLoop n m.rotate := by
      simp [ArucoMarker.validateLoop, ArucoMarker.hammingDistance, hne]
    rw [step, Function.iterate_succ_apply]
    refine ih m.rotate ?_
    intro j hj
    have := h (j + 1) (by omega)
    rwa [Function.iterate_succ_apply] at this

/-- Among the rotation states below `n`, if one has distance zero there is a first one. -/
theorem exists_least_zero (n : Nat) (c : Cells)
    (h : ∃ k, k < n ∧ cellsHammingDistance (rotateCells^[k] c) = 0) :
    ∃ k, k < n ∧ cellsHammingDistance (rotateCells^[k] c) = 0 ∧
      ∀ j, j < k → cellsHammingDistance (rotateCells^[j] c) ≠ 0 := by
  classical
  refine ⟨Nat.find h, (Nat.find_spec h).1, (Nat.find_spec h).2, ?_⟩
  intro j hj hz
  exact Nat.find_min h hj ⟨lt_trans hj (Nat.find_spec h).1, hz⟩

/-- What `validate` does once the point check and the border loop have been passed. -/
theorem validate_eq_loop (m : ArucoMarker P) (hp : m.projected ≠ [])
    (hb : borderCheck m.cells = true) :
    ArucoMarker.validate m = ArucoMarker.validateLoop 4 { m with validated := false } := by
  have hl : m.projected.length ≠ 0 := by
    intro h
    exact hp (List.length_eq_zero.mp h)
  simp [ArucoMarker.validate, hl, hb]

end MarkerLemmas

theorem ids_row (j : Fin 4) :
    ids j 0 = 1 - ((j.val / 2 : Nat) : Int) ∧ ids j 1 = ((j.val / 2 : Nat) : Int) ∧
      ids j 2 = ((j.val % 2 : Nat) : Int) ∧ ids j 3 = ((j.val % 2 : Nat) : Int) ∧
      ids j 4 = (((j.val / 2 + j.val % 2) % 2 : Nat) : Int) := by
  fin_cases j <;> decide

theorem canonicalGrid_border (id : Nat) (r c : Fin 7)
    (h : r.val = 0 ∨ r.val = 6 ∨ c.val = 0 ∨ c.val = 6) : canonicalGrid id r c = 0 := by
  simp only [canonicalGrid, h, if_true]

theorem canonicalGrid_interior (id : Nat) (r : Fin 7) (hr0 : r.val ≠ 0) (hr6 : r.val ≠ 6) :
    canonicalGrid id r 1 = ids (codewordIndex id r.val) 0 ∧
    canonicalGrid id r 2 = ids (codewordIndex id r.val) 1 ∧
    canonicalGrid id r 3 = ids (codewordIndex id r.val) 2 ∧
    canonicalGrid id r 4 = ids (codewordIndex id r.val) 3 ∧
    canonicalGrid id r 5 = ids (codewordIndex id r.val) 4 := by
  refine ⟨?_, ?_, ?_, ?_, ?_⟩ <;> simp [canonicalGrid, hr0, hr6] <;> rfl

theorem canonicalGrid_rowOK (id : Nat) (r : Fin 7) (hr0 : r.val ≠ 0) (hr6 : r.val ≠ 6) :
    RowOK (canonicalGrid id) r := by
  obtain ⟨e1, e2, e3, e4, e5⟩ := canonicalGrid_interior id r hr0 hr6
  obtain ⟨i0, i1, i2, i3, i4⟩ := ids_row (codewordIndex id r.val)
  have hlt := (codewordIndex id r.val).isLt
  unfold RowOK
  rw [e1, e2, e3, e4, e5, i0, i1, i2, i3, i4]
  omega

theorem canonicalGrid_hamming (id : Nat) : cellsHammingDistance (canonicalGrid id) = 0 := by
  rw [cellsHammingDistance_eq_zero_iff_rowOK]
  refine ⟨?_, ?_, ?_, ?_, ?_⟩ <;> exact canonicalGrid_rowOK id _ (by decide) (by decide)

theorem canonicalGrid_borderCheck (id : Nat) : borderCheck (canonicalGrid id) = true := by
  have hb : ∀ i : Fin 7, borderBad (canonicalGrid id) i = false := by
    intro i
    simp only [borderBad]
    simp only [canonicalGrid_border id i 0 (Or.inr (Or.inr (Or.inl rfl))),
      canonicalGrid_border id i 6 (Or.inr (Or.inr (Or.inr rfl))),
      canonicalGrid_border id 0 i (Or.inl rfl), canonicalGrid_border id 6 i (Or.inr (Or.inl rfl))]
    rfl
  simp [borderCheck, borderLoop, hb]

theorem canonicalGrid_bits (id : Nat) (i : Fin 7) :
    (canonicalGrid id i 2 = 0 ∨ canonicalGrid id i 2 = 1) ∧
      (canonicalGrid id i 4 = 0 ∨ canonicalGrid id i 4 = 1) := by
  by_cases h : i.val = 0 ∨ i.val = 6
  · rw [canonicalGrid_border id i 2 (by tauto), canonicalGrid_border id i 4 (by tauto)]
    simp
  · push_neg at h
    have := canonicalGrid_rowOK id i h.1 h.2
    exact ⟨this.1, this.2.1⟩

theorem pair_hi (a b : Nat) (ha : a < 2) (hb : b < 2) : (2 * a + b) % 4 / 2 = a := by omega

theorem pair_lo (a b : Nat) (hb : b < 2) : (2 * a + b) % 4 % 2 = b := by omega

theorem bits_sum (n : Nat) (h : n < 1024) :
    (n / 512 % 2) * 512 + (n / 256 % 2) * 256 + (n / 128 % 2) * 128 + (n / 64 % 2) * 64
      + (n / 32 % 2) * 32 + (n / 16 % 2) * 16 + (n / 8 % 2) * 8 + (n / 4 % 2) * 4
      + (n / 2 % 2) * 2 + n / 1 % 2 = n := by
  rw [Nat.div_one]
  have e4 : n / 4 = n / 2 / 2 := by omega
  have e8 : n / 8 = n / 4 / 2 := by omega
  have e16 : n / 16 = n / 8 / 2 := by omega
  have e32 : n / 32 = n / 16 / 2 := by omega
  have e64 : n / 64 = n / 32 / 2 := by omega
  have e128 : n / 128 = n / 64 / 2 := by omega
  have e256 : n / 256 = n / 128 / 2 := by omega
  have e512 : n / 512 = n / 256 / 2 := by omega
  have z : n / 512 / 2 = 0 := by omega
  generalize n / 512 = q9 at *
  generalize n / 256 = q8 at *
  generalize n / 128 = q7 at *
  generalize n / 64 = q6 at *
  generalize n / 32 = q5 at *
  generalize n / 16 = q4 at *
  generalize n / 8 = q3 at *
  generalize n / 4 = q2 at *
  omega

theorem canonicalGrid_cellsID (id : Nat) (h : id < 1024) : cellsID (canonicalGrid id) = id := by
  have e := cellsID_eq (canonicalGrid id) (fun i _ _ => canonicalGrid_bits id i)
  have r1 := canonicalGrid_interior id 1 (by decide) (by decide)
  have r2 := canonicalGrid_interior id 2 (by decide) (by decide)
  have r3 := canonicalGrid_interior id 3 (by decide) (by decide)
  have r4 := canonicalGrid_interior id 4 (by decide) (by decide)
  have r5 := canonicalGrid_interior id 5 (by decide) (by decide)
  simp only [r1.2.1, r1.2.2.2.1, r2.2.1, r2.2.2.2.1, r3.2.1, r3.2.2.2.1, r4.2.1, r4.2.2.2.1,
    r5.2.1, r5.2.2.2.1] at e
  have v1 : ((1 : Fin 7) : Nat) = 1 := rfl
  have v2 : ((2 : Fin 7) : Nat) = 2 := rfl
  have v3 : ((3 : Fin 7) : Nat) = 3 := rfl
  have v4 : ((4 : Fin 7) : Nat) = 4 := rfl
  have v5 : ((5 : Fin 7) : Nat) = 5 := rfl
  simp only [v1, v2, v3, v4, v5] at e
  have c1 : (codewordIndex id 1).val = (2 * (id / 512 % 2) + id / 256 % 2) % 4 := rfl
  have c2 : (codewordIndex id 2).val = (2 * (id / 128 % 2) + id / 64 % 2) % 4 := rfl
  have c3 : (codewordIndex id 3).val = (2 * (id / 32 % 2) + id / 16 % 2) % 4 := rfl
  have c4 : (codewordIndex id 4).val = (2 * (id / 8 % 2) + id / 4 % 2) % 4 := rfl
  have c5 : (codewordIndex id 5).val = (2 * (id / 2 % 2) + id / 1 % 2) % 4 := rfl
  have i1 := ids_row (codewordIndex id 1)
  have i2 := ids_row (codewordIndex id 2)
  have i3 := ids_row (codewordIndex id 3)
  have i4 := ids_row (codewordIndex id 4)
  have i5 := ids_row (codewordIndex id 5)
  simp only [e, i1.2.1, i1.2.2.2.1, i2.2.1, i2.2.2.2.1, i3.2.1, i3.2.2.2.1, i4.2.1,
    i4.2.2.2.1, i5.2.1, i5.2.2.2.1, c1, c2, c3, c4, c5]
  simp only [pair_hi _ _ (Nat.mod_lt _ (by decide : 0 < 2)) (Nat.mod_lt _ (by decide : 0 < 2)),
    pair_lo _ _ (Nat.mod_lt _ (by decide : 0 < 2))]
  exact_mod_cast bits_sum id h

theorem rotateCells_two (c : Cells) (i j : Fin 7) :
    rotateCells (rotateCells c) i j = c ⟨6 - i.val, by omega⟩ ⟨6 - j.val, by omega⟩ := by
  simp only [rotateCells]
  congr 1 <;> apply Fin.ext <;> simp only [] <;> omega

theorem rowOK_of_hamming (c : Cells) (h : cellsHammingDistance c = 0) (i : Fin 7)
    (h0 : i.val ≠ 0) (h6 : i.val ≠ 6) : RowOK c i := by
  rw [cellsHammingDistance_eq_zero_iff_rowOK] at h
  obtain ⟨r1, r2, r3, r4, r5⟩ := h
  have : i = 1 ∨ i = 2 ∨ i = 3 ∨ i = 4 ∨ i = 5 := by
    fin_cases i <;> simp at h0 h6 ⊢
  rcases this with rfl | rfl | rfl | rfl | rfl <;> assumption

theorem hamming_of_rowOK (c : Cells) (h : ∀ i : Fin 7, i.val ≠ 0 → i.val ≠ 6 → RowOK c i) :
    cellsHammingDistance c = 0 := by
  rw [cellsHammingDistance_eq_zero_iff_rowOK]
  refine ⟨?_, ?_, ?_, ?_, ?_⟩ <;> exact h _ (by decide) (by decide)

theorem pattern_of_zero_rot2 (c : Cells) (h : cellsHammingDistance c = 0)
    (h2 : cellsHammingDistance (rotateCells (rotateCells c)) = 0) : Pattern1023 c := by
  intro i h0 h6
  have r := rowOK_of_hamming c h i h0 h6
  have s := rowOK_of_hamming _ h2 ⟨6 - i.val, by omega⟩ (by simp only []; omega)
    (by simp only []; omega)
  unfold RowOK at r s
  simp only [rotateCells_two] at s
  have hi : (⟨6 - (6 - i.val), by omega⟩ : Fin 7) = i := by
    apply Fin.ext; simp only []; omega
  have e1 : (⟨6 - ((1 : Fin 7) : Nat), by decide⟩ : Fin 7) = 5 := rfl
  have e2 : (⟨6 - ((2 : Fin 7) : Nat), by decide⟩ : Fin 7) = 4 := rfl
  have e3 : (⟨6 - ((3 : Fin 7) : Nat), by decide⟩ : Fin 7) = 3 := rfl
  have e4 : (⟨6 - ((4 : Fin 7) : Nat), by decide⟩ : Fin 7) = 2 := rfl
  have e5 : (⟨6 - ((5 : Fin 7) : Nat), by decide⟩ : Fin 7) = 1 := rfl
  simp only [hi, e1, e2, e3, e4, e5] at s
  omega

theorem zero_rot2_of_pattern (c : Cells) (h : Pattern1023 c) :
    cellsHammingDistance (rotateCells (rotateCells c)) = 0 := by
  apply hamming_of_rowOK
  intro i h0 h6
  have p := h ⟨6 - i.val, by omega⟩ (by simp only []; omega) (by simp only []; omega)
  unfold RowOK
  simp only [rotateCells_two]
  have e1 : (⟨6 - ((1 : Fin 7) : Nat), by decide⟩ : Fin 7) = 5 := rfl
  have e2 : (⟨6 - ((2 : Fin 7) : Nat), by decide⟩ : Fin 7) = 4 := rfl
  have e3 : (⟨6 - ((3 : Fin 7) : Nat), by decide⟩ : Fin 7) = 3 := rfl
  have e4 : (⟨6 - ((4 : Fin 7) : Nat), by decide⟩ : Fin 7) = 2 := rfl
  have e5 : (⟨6 - ((5 : Fin 7) : Nat), by decide⟩ : Fin 7) = 1 := rfl
  simp only [e1, e2, e3, e4, e5]
  omega

theorem cellsID_of_pattern (c : Cells) (h : Pattern1023 c) : cellsID c = 1023 := by
  rw [cellsID_eq c (fun i h0 h6 => ⟨Or.inr (h i h0 h6).2.1, Or.inr (h i h0 h6).2.2.2.1⟩)]
  have p1 := h 1 (by decide) (by decide)
  have p2 := h 2 (by decide) (by decide)
  have p3 := h 3 (by decide) (by decide)
  have p4 := h 4 (by decide) (by decide)
  have p5 := h 5 (by decide) (by decide)
  omega

theorem rotateCells_iterate_mod (n : Nat) (c : Cells) :
    rotateCells^[n] c = rotateCells^[n % 4] c := by
  induction n using Nat.strong_induction_on with
  | _ n ih =>
    by_cases hn : n < 4
    · rw [Nat.mod_eq_of_lt hn]
    · have e : n = (n - 4) + 4 := by omega
      rw [e, Function.iterate_add_apply, rotateCells_iterate_four, ih (n - 4) (by omega)]
      congr 1
      omega

/-- The rotation states of a zero-distance grid that have distance zero again: the
multiples of four quarter turns, and the half turns when the interior is the 1023 pattern. -/
theorem zero_iterate_iff (c : Cells) (h : cellsHammingDistance c = 0) (n : Nat) :
    cellsHammingDistance (rotateCells^[n] c) = 0 ↔
      n % 4 = 0 ∨ (n % 4 = 2 ∧ Pattern1023 c) := by
  rw [rotateCells_iterate_mod]
  have hlt : n % 4 < 4 := Nat.mod_lt _ (by decide)
  generalize n % 4 = r at hlt
  interval_cases r
  · simp [h]
  · have := not_zero_rotate_of_zero c h
    simp only [Function.iterate_succ, Function.iterate_zero, Function.comp_apply, id_eq]
    constructor
    · intro h1; exact absurd h1 this
    · intro h1; omega
  · simp only [Function.iterate_succ, Function.iterate_zero, Function.comp_apply, id_eq]
    constructor
    · intro h2; exact Or.inr ⟨trivial, pattern_of_zero_rot2 c h h2⟩
    · rintro (h2 | ⟨-, hp⟩)
      · omega
      · exact zero_rot2_of_pattern c hp
  · simp only [Function.iterate_succ, Function.iterate_zero, Function.comp_apply, id_eq]
    constructor
    · intro h3
      have h4 := not_zero_rotate_of_zero _ h3
      have e : rotateCells (rotateCells (rotateCells (rotateCells c))) = c :=
        rotateCells_iterate_four c
      rw [e] at h4
      exact absurd h h4
    · intro h1; omega

/-- Every zero-distance rotation state of a zero-distance grid carries the same identifier. -/
theorem cellsID_iterate_of_zero (c : Cells) (h : cellsHammingDistance c = 0) (n : Nat)
    (hn : cellsHammingDistance (rotateCells^[n] c) = 0) :
    cellsID (rotateCells^[n] c) = cellsID c := by
  rcases (zero_iterate_iff c h n).1 hn with h0 | ⟨h2, hp⟩
  · rw [rotateCells_iterate_mod, h0]
    rfl
  · have hp2 : Pattern1023 (rotateCells^[n] c) := by
      rw [rotateCells_iterate_mod, h2]
      apply pattern_of_zero_rot2
      · exact zero_rot2_of_pattern c hp
      · have e : rotateCells (rotateCells (rotateCells^[2] c)) = c :=
          rotateCells_iterate_four c
        rw [e]
        exact h
    rw [cellsID_of_pattern _ hp2, cellsID_of_pattern _ hp]

theorem canonicalGrid_pattern_iff (id : Nat) (h : id < 1024) :
    Pattern1023 (canonicalGrid id) ↔ id = 1023 := by
  constructor
  · intro hp
    have e1 := cellsID_of_pattern _ hp
    rw [canonicalGrid_cellsID id h] at e1
    exact_mod_cast e1
  · rintro rfl i h0 h6
    fin_cases i <;> first | exact absurd rfl h0 | exact absurd rfl h6 | decide

theorem borderZero_rotateCells (c : Cells) (h : BorderZero c) : BorderZero (rotateCells c) := by
  intro i j hij
  simp only [rotateCells]
  apply h
  simp only []
  omega

theorem borderZero_iterate (k : Nat) (c : Cells) (h : BorderZero c) :
    BorderZero (rotateCells^[k] c) := by
  induction k with
  | zero => exact h
  | succ n ih =>
    rw [Function.iterate_succ_apply']
    exact borderZero_rotateCells _ ih

theorem borderCheck_of_borderZero (c : Cells) (h : BorderZero c) : borderCheck c = true := by
  have hb : ∀ i : Fin 7, borderBad c i = false := by
    intro i
    simp only [borderBad, h i 0 (Or.inr (Or.inr (Or.inl rfl))),
      h i 6 (Or.inr (Or.inr (Or.inr rfl))), h 0 i (Or.inl rfl), h 6 i (Or.inr (Or.inl rfl))]
    rfl
  simp [borderCheck, borderLoop, hb]

theorem canonicalGrid_borderZero (id : Nat) : BorderZero (canonicalGrid id) :=
  fun i j h => canonicalGrid_border id i j h

theorem stdRotate1_length {P : Type} (l : List P) : (stdRotate1 l).length = l.length := by
  cases l with
  | nil => rfl
  | cons p ps => simp [stdRotate1]

theorem stdRotate1_iterate_length {P : Type} (k : Nat) (l : List P) :
    (stdRotate1^[k] l).length = l.length := by
  induction k with
  | zero => rfl
  | succ n ih => rw [Function.iterate_succ_apply', stdRotate1_length, ih]

theorem stdRotate1_iterate_four {P : Type} (l : List P) (h : l.length = 4) :
    stdRotate1^[4] l = l := by
  match l, h with
  | [a, b, c, d], _ => rfl

section ValidateLemmas

variable {P : Type}

/-- The outcome of `validate` on a marker that passes the point check and the border loop and
whose first zero-distance rotation state is the `k`-th. -/
theorem validate_found (m : ArucoMarker P) (hp : m.projected ≠ [])
    (hb : borderCheck m.cells = true) (k : Nat) (hk : k < 4)
    (h0 : cellsHammingDistance (rotateCells^[k] m.cells) = 0)
    (hlt : ∀ j, j < k → cellsHammingDistance (rotateCells^[j] m.cells) ≠ 0) :
    (ArucoMarker.validate m).1 = true ∧
    (ArucoMarker.validate m).2.cells = rotateCells^[k] m.cells ∧
    (ArucoMarker.validate m).2.rotation = (fun r : Int => wrap32 (r + 1))^[k] m.rotation ∧
    (ArucoMarker.validate m).2.projected = stdRotate1^[k] m.projected ∧
    (ArucoMarker.validate m).2.id = cellsID (rotateCells^[k] m.cells) ∧
    (ArucoMarker.validate m).2.validated = true := by
  rw [validate_eq_loop m hp hb,
    validateLoop_found 4 k { m with validated := false } hk h0 hlt]
  refine ⟨rfl, ?_, ?_, ?_, rfl, rfl⟩
  · exact rotate_iterate_cells k _
  · exact rotate_iterate_rotation k _
  · exact rotate_iterate_projected k _

/-- The method `validate` returns `false` when no rotation state has distance zero. -/
theorem validate_none (m : ArucoMarker P)
    (h : ∀ j, j < 4 → cellsHammingDistance (rotateCells^[j] m.cells) ≠ 0) :
    (ArucoMarker.validate m).1 = false := by
  unfold ArucoMarker.validate
  simp only []
  split_ifs
  · rfl
  · rfl
  · rw [validateLoop_none 4 { m with validated := false } h]

end ValidateLemmas

section RotatedLemmas

variable {P : Type}

/-- A marker whose grid is a rotation state of a zero-distance grid `g`, and which passes the
point check and the border loop, is accepted with the identifier of `g`. -/
theorem validate_of_rotated (m : ArucoMarker P) (hp : m.projected ≠ [])
    (hb : borderCheck m.cells = true) (g : Cells) (hg : cellsHammingDistance g = 0) (n : Nat)
    (hm : m.cells = rotateCells^[n] g) :
    (ArucoMarker.validate m).1 = true ∧ (ArucoMarker.validate m).2.id = cellsID g ∧
      cellsHammingDistance (ArucoMarker.validate m).2.cells = 0 := by
  have hex : ∃ k, k < 4 ∧ cellsHammingDistance (rotateCells^[k] m.cells) = 0 := by
    refine ⟨(4 - n % 4) % 4, Nat.mod_lt _ (by decide), ?_⟩
    rw [hm, ← Function.iterate_add_apply, zero_iterate_iff g hg]
    left
    omega
  obtain ⟨k, hk, h0, hlt⟩ := exists_least_zero 4 m.cells hex
  obtain ⟨v1, v2, -, -, v5, -⟩ := validate_found m hp hb k hk h0 hlt
  refine ⟨v1, ?_, ?_⟩
  · rw [v5, hm, ← Function.iterate_add_apply]
    apply cellsID_iterate_of_zero g hg
    rw [Function.iterate_add_apply, ← hm]
    exact h0
  · rw [v2]
    exact h0

end RotatedLemmas

/-- The first zero-distance rotation state met by `validate` on the canonical grid of `id`
after `k` quarter turns: the `4 - k` turns that complete the full turn, or, for the 1023
pattern, the turn that completes a half turn. -/
theorem canonical_first_zero (id : Nat) (hid : id < 1024) (k : Nat) (hk : k < 4) (t : Nat)
    (ht : t = if id = 1023 then k % 2 else (4 - k) % 4) :
    t < 4 ∧ cellsHammingDistance (rotateCells^[t] (rotateCells^[k] (canonicalGrid id))) = 0 ∧
      ∀ j, j < t → cellsHammingDistance (rotateCells^[j] (rotateCells^[k] (canonicalGrid id))) ≠ 0 := by
  have hz := zero_iterate_iff (canonicalGrid id) (canonicalGrid_hamming id)
  have hpat := canonicalGrid_pattern_iff id hid
  simp only [← Function.iterate_add_apply, hz, hpat, ne_eq]
  by_cases h : id = 1023
  · simp only [h, if_true] at ht
    simp only [h, and_true]
    refine ⟨by omega, by omega, ?_⟩
    intro j hj hcon
    omega
  · simp only [h, if_false] at ht
    simp only [h, and_false, or_false]
    refine ⟨by omega, by omega, ?_⟩
    intro j hj hcon
    omega

/-- The list `borderCells` holds each border position once and nothing else. -/
theorem borderCells_spec :
    borderCells.length = 24 ∧ borderCells.Nodup ∧
      ∀ i j : Fin 7, (i, j) ∈ borderCells ↔ (i.val = 0 ∨ i.val = 6 ∨ j.val = 0 ∨ j.val = 6) := by
  decide

/-- The payload cells of the canonical grid are the bits of the identifier. -/
theorem canonicalGrid_payload (id : Nat) (r : Fin 7) (hr0 : r.val ≠ 0) (hr6 : r.val ≠ 6) :
    canonicalGrid id r 2 = (idBit id (2 * (5 - r.val) + 1) : Int) ∧
      canonicalGrid id r 4 = (idBit id (2 * (5 - r.val)) : Int) := by
  obtain ⟨-, e2, -, e4, -⟩ := canonicalGrid_interior id r hr0 hr6
  obtain ⟨-, i1, -, i3, -⟩ := ids_row (codewordIndex id r.val)
  have ha : idBit id (2 * (5 - r.val) + 1) < 2 := Nat.mod_lt _ (by decide)
  have hb : idBit id (2 * (5 - r.val)) < 2 := Nat.mod_lt _ (by decide)
  have hv : (codewordIndex id r.val).val
      = (2 * idBit id (2 * (5 - r.val) + 1) + idBit id (2 * (5 - r.val))) % 4 := rfl
  rw [e2, e4, i1, i3, hv, pair_hi _ _ ha hb, pair_lo _ _ hb]
  exact ⟨rfl, rfl⟩

/-- Two rows of `ids` with the same payload cells (columns 2 and 4 of the grid) are the same
row: the payload bits determine the reference codeword. -/
theorem ids_payload_unique (j k : Fin 4) (h2 : ids j 1 = ids k 1) (h4 : ids j 3 = ids k 3) :
    j = k := by
  revert h2 h4
  revert j k
  decide

/-! ## C1: identifier round trip -/

/-- C1 (ID round-trip). For every `id < 1024` the canonical grid of `id`, placed in a fresh
marker with four projected points, is accepted by `validate`; the stored identifier is `id`
and the rotation counter is `0`. -/
theorem id_round_trip {P : Type} (id : Nat) (hid : id < 1024) (pts : List P)
    (hpts : pts.length = 4) :
    (ArucoMarker.validate (ArucoMarker.fresh (canonicalGrid id) pts)).1 = true ∧
    (ArucoMarker.validate (ArucoMarker.fresh (canonicalGrid id) pts)).2.id = (id : Int) ∧
    (ArucoMarker.validate (ArucoMarker.fresh (canonicalGrid id) pts)).2.rotation = 0 := by
  have hp : (ArucoMarker.fresh (canonicalGrid id) pts).projected ≠ [] := by
    intro h
    have : pts = [] := h
    rw [this] at hpts
    simp at hpts
  obtain ⟨v1, -, v3, -, v5, -⟩ :=
    validate_found (ArucoMarker.fresh (canonicalGrid id) pts) hp (canonicalGrid_borderCheck id) 0
      (by decide) (canonicalGrid_hamming id) (fun j hj => absurd hj (Nat.not_lt_zero j))
  refine ⟨v1, ?_, ?_⟩
  · rw [v5]
    exact canonicalGrid_cellsID id hid
  · rw [v3]
    rfl

theorem id_round_trip_witness :
    (42 < 1024 ∧ [(0 : Nat), 1, 2, 3].length = 4) ∧
    (ArucoMarker.validate (ArucoMarker.fresh (canonicalGrid 42) [(0 : Nat), 1, 2, 3])).1 = true ∧
    (ArucoMarker.validate (ArucoMarker.fresh (canonicalGrid 42) [(0 : Nat), 1, 2, 3])).2.id
      = ((42 : Nat) : Int) ∧
    (ArucoMarker.validate (ArucoMarker.fresh (canonicalGrid 42) [(0 : Nat), 1, 2, 3])).2.rotation
      = 0 :=
  ⟨⟨by decide, rfl⟩, id_round_trip 42 (by decide) [0, 1, 2, 3] rfl⟩

/-! ## C2: rotation invariance of the identifier -/

/-- C2 (rotation invariance of the identifier). For every `id < 1024` and every number `k`
of calls of `rotate` (in particular `k` in `{1, 2, 3}`) applied to the marker holding the
canonical grid of `id` and four projected points, `validate` on the result returns `true`
and stores the identifier `id`. -/
theorem id_rotation_invariant {P : Type} (id : Nat) (hid : id < 1024) (k : Nat)
    (pts : List P) (hpts : pts.length = 4) :
    (ArucoMarker.validate
      (ArucoMarker.rotate^[k] (ArucoMarker.fresh (canonicalGrid id) pts))).1 = true ∧
    (ArucoMarker.validate
      (ArucoMarker.rotate^[k] (ArucoMarker.fresh (canonicalGrid id) pts))).2.id = (id : Int) := by
  have hc : (ArucoMarker.rotate^[k] (ArucoMarker.fresh (canonicalGrid id) pts)).cells
      = rotateCells^[k] (canonicalGrid id) := rotate_iterate_cells k _
  have hp : (ArucoMarker.rotate^[k] (ArucoMarker.fresh (canonicalGrid id) pts)).projected ≠ [] := by
    intro h
    have hl := congrArg List.length h
    rw [rotate_iterate_projected, stdRotate1_iterate_length] at hl
    have : pts.length = 0 := hl
    omega
  have hb : borderCheck (ArucoMarker.rotate^[k] (ArucoMarker.fresh (canonicalGrid id) pts)).cells
      = true := by
    rw [hc]
    exact borderCheck_of_borderZero _ (borderZero_iterate k _ (canonicalGrid_borderZero id))
  obtain ⟨v1, v2, -⟩ := validate_of_rotated _ hp hb (canonicalGrid id) (canonicalGrid_hamming id)
    k hc
  exact ⟨v1, by rw [v2, canonicalGrid_cellsID id hid]⟩

theorem id_rotation_invariant_witness :
    (42 < 1024 ∧ [(0 : Nat), 1, 2, 3].length = 4) ∧
    (ArucoMarker.validate
      (ArucoMarker.rotate^[3] (ArucoMarker.fresh (canonicalGrid 42) [(0 : Nat), 1, 2, 3]))).1
        = true ∧
    (ArucoMarker.validate
      (ArucoMarker.rotate^[3] (ArucoMarker.fresh (canonicalGrid 42) [(0 : Nat), 1, 2, 3]))).2.id
        = ((42 : Nat) : Int) :=
  ⟨⟨by decide, rfl⟩, id_rotation_invariant 42 (by decide) 3 [0, 1, 2, 3] rfl⟩

/-! ## C3: reported rotation count -/

/-- C3, counterexample. The canonical grid of identifier 0 rotated once (`k = 1`) and placed
in a fresh marker is accepted with rotation field 3, which is not `1 mod 4`. -/
theorem rotation_count_counterexample :
    (ArucoMarker.validate
      (ArucoMarker.fresh (rotateCells^[1] (canonicalGrid 0)) [(0 : Nat), 1, 2, 3])).1 = true ∧
    (ArucoMarker.validate
      (ArucoMarker.fresh (rotateCells^[1] (canonicalGrid 0)) [(0 : Nat), 1, 2, 3])).2.rotation = 3 ∧
    (ArucoMarker.validate
      (ArucoMarker.fresh (rotateCells^[1] (canonicalGrid 0)) [(0 : Nat), 1, 2, 3])).2.rotation
        ≠ ((1 % 4 : Nat) : Int) := by
  decide

/-- C3, amended. For every `id < 1024` and `k` in `{1, 2, 3}`, the canonical grid of `id`
rotated `k` times and placed in a fresh marker with four projected points is accepted, and
the rotation field is then `4 - k`, the number of quarter turns `validate` applies to reach
the canonical grid again; for `id = 1023`, whose grid is unchanged by a half turn, it is
`k mod 2`. -/
theorem rotation_count_reported {P : Type} (id : Nat) (hid : id < 1024) (k : Nat)
    (hk : k = 1 ∨ k = 2 ∨ k = 3) (pts : List P) (hpts : pts.length = 4) :
    (ArucoMarker.validate
      (ArucoMarker.fresh (rotateCells^[k] (canonicalGrid id)) pts)).1 = true ∧
    (ArucoMarker.validate
      (ArucoMarker.fresh (rotateCells^[k] (canonicalGrid id)) pts)).2.rotation
        = if id = 1023 then ((k % 2 : Nat) : Int) else ((4 - k : Nat) : Int) := by
  have hp : (ArucoMarker.fresh (rotateCells^[k] (canonicalGrid id)) pts).projected ≠ [] := by
    intro h
    have : pts = [] := h
    rw [this] at hpts
    simp at hpts
  have hb : borderCheck (ArucoMarker.fresh (rotateCells^[k] (canonicalGrid id)) pts).cells
      = true :=
    borderCheck_of_borderZero _ (borderZero_iterate k _ (canonicalGrid_borderZero id))
  obtain ⟨t1, t2, t3⟩ := canonical_first_zero id hid k (by omega) _ rfl
  obtain ⟨v1, -, v3, -⟩ := validate_found _ hp hb _ t1 t2 t3
  refine ⟨v1, ?_⟩
  rw [v3]
  show (fun r : Int => wrap32 (r + 1))^[_] (0 : Int) = _
  rw [wrap32_incr_iterate _ 0 (by decide) (by omega)]
  by_cases h : id = 1023
  · simp only [h, if_true]
    simp
  · simp only [h, if_false]
    have e : (4 - k) % 4 = 4 - k := by omega
    rw [e]
    simp

theorem rotation_count_reported_witness :
    (0 < 1024 ∧ (1 = 1 ∨ 1 = 2 ∨ 1 = 3) ∧ [(0 : Nat), 1, 2, 3].length = 4) ∧
    (ArucoMarker.validate
      (ArucoMarker.fresh (rotateCells^[1] (canonicalGrid 0)) [(0 : Nat), 1, 2, 3])).1 = true ∧
    (ArucoMarker.validate
      (ArucoMarker.fresh (rotateCells^[1] (canonicalGrid 0)) [(0 : Nat), 1, 2, 3])).2.rotation
        = if 0 = 1023 then ((1 % 2 : Nat) : Int) else ((4 - 1 : Nat) : Int) :=
  ⟨⟨by decide, by decide, rfl⟩,
    rotation_count_reported 0 (by decide) 1 (by decide) [0, 1, 2, 3] rfl⟩

/-! ## C4, C5, C6: the border loop -/

/-- C4, the code at the failing input. The canonical grid of identifier 0 with the four
border cells `(3,0)`, `(3,6)`, `(0,3)`, `(6,3)` set to white has 4 non-zero border cells and
is accepted by `validate`: the four cells share the loop index 3 and count once. -/
theorem border_four_white_accepted :
    whiteBorderCount (setWhite (canonicalGrid 0) [(3, 0), (3, 6), (0, 3), (6, 3)]) = 4 ∧
    (ArucoMarker.validate
      (ArucoMarker.fresh (setWhite (canonicalGrid 0) [(3, 0), (3, 6), (0, 3), (6, 3)])
        [(0 : Nat), 1, 2, 3])).1 = true := by
  decide

/-- C5, the code at the failing input. The canonical grid of identifier 0 with the three
border cells `(0,6)`, `(0,1)`, `(0,2)` set to white has exactly 3 non-zero border cells and
Hamming distance 0, and is rejected by `validate`: the corner cell `(0,6)` is counted at loop
index 0 and again at loop index 6. -/
theorem border_three_white_rejected :
    whiteBorderCount (setWhite (canonicalGrid 0) [(0, 6), (0, 1), (0, 2)]) = 3 ∧
    cellsHammingDistance (setWhite (canonicalGrid 0) [(0, 6), (0, 1), (0, 2)]) = 0 ∧
    (ArucoMarker.validate
      (ArucoMarker.fresh (setWhite (canonicalGrid 0) [(0, 6), (0, 1), (0, 2)])
        [(0 : Nat), 1, 2, 3])).1 = false := by
  decide

/-- C6, the code at the failing input. The canonical grid of identifier 0 with the three
border cells `(0,0)`, `(0,1)`, `(0,2)` set to white is accepted by `validate`, and the same
grid rotated once is rejected: the border loop counts 3 on the first and 4 on the second. -/
theorem validate_rotated_rejected :
    whiteBorderCount (setWhite (canonicalGrid 0) [(0, 0), (0, 1), (0, 2)]) = 3 ∧
    (ArucoMarker.validate
      (ArucoMarker.fresh (setWhite (canonicalGrid 0) [(0, 0), (0, 1), (0, 2)])
        [(0 : Nat), 1, 2, 3])).1 = true ∧
    borderCheck (rotateCells^[1] (setWhite (canonicalGrid 0) [(0, 0), (0, 1), (0, 2)])) = false ∧
    (ArucoMarker.validate
      (ArucoMarker.fresh (rotateCells^[1] (setWhite (canonicalGrid 0) [(0, 0), (0, 1), (0, 2)]))
        [(0 : Nat), 1, 2, 3])).1 = false := by
  decide

/-! ## C7: corner realignment -/

/-- C7, counterexample. For identifier 1023, the four distinct corners `0, 1, 2, 3` and
`k = 1`, validating the canonical marker leaves the corners `0, 1, 2, 3`, while validating
the marker after one `rotate` call leaves `2, 3, 0, 1`. -/
theorem corner_realignment_counterexample :
    [(0 : Nat), 1, 2, 3].Nodup ∧
    (ArucoMarker.validate
      (ArucoMarker.fresh (canonicalGrid 1023) [(0 : Nat), 1, 2, 3])).2.projected = [0, 1, 2, 3] ∧
    (ArucoMarker.validate (ArucoMarker.rotate^[1]
      (ArucoMarker.fresh (canonicalGrid 1023) [(0 : Nat), 1, 2, 3]))).2.projected = [2, 3, 0, 1] ∧
    (ArucoMarker.validate
      (ArucoMarker.fresh (canonicalGrid 1023) [(0 : Nat), 1, 2, 3])).2.projected ≠
    (ArucoMarker.validate (ArucoMarker.rotate^[1]
      (ArucoMarker.fresh (canonicalGrid 1023) [(0 : Nat), 1, 2, 3]))).2.projected := by
  decide

/-- C7, amended. For every `id < 1024`, every sequence of four image points and every
`k < 4`, validating the canonical marker leaves the corner sequence as given, and validating
the marker obtained from it by `k` calls of `rotate` leaves the same sequence, except for
`id = 1023` with `k = 1` or `k = 2`, where it leaves the sequence shifted by two positions. -/
theorem corner_realignment {P : Type} (id : Nat) (hid : id < 1024) (pts : List P)
    (hpts : pts.length = 4) (k : Nat) (hk : k < 4) :
    (ArucoMarker.validate (ArucoMarker.fresh (canonicalGrid id) pts)).2.projected = pts ∧
    (ArucoMarker.validate
      (ArucoMarker.rotate^[k] (ArucoMarker.fresh (canonicalGrid id) pts))).2.projected
        = if id = 1023 ∧ (k = 1 ∨ k = 2) then stdRotate1^[2] pts else pts := by
  have hp0 : (ArucoMarker.fresh (canonicalGrid id) pts).projected ≠ [] := by
    intro h
    have : pts = [] := h
    rw [this] at hpts
    simp at hpts
  have first := (validate_found (ArucoMarker.fresh (canonicalGrid id) pts) hp0
    (canonicalGrid_borderCheck id) 0 (by decide) (canonicalGrid_hamming id)
    (fun j hj => absurd hj (Nat.not_lt_zero j))).2.2.2.1
  refine ⟨first, ?_⟩
  have hc : (ArucoMarker.rotate^[k] (ArucoMarker.fresh (canonicalGrid id) pts)).cells
      = rotateCells^[k] (canonicalGrid id) := rotate_iterate_cells k _
  have hq : (ArucoMarker.rotate^[k] (ArucoMarker.fresh (canonicalGrid id) pts)).projected
      = stdRotate1^[k] pts := rotate_iterate_projected k _
  have hp : (ArucoMarker.rotate^[k] (ArucoMarker.fresh (canonicalGrid id) pts)).projected ≠ [] := by
    intro h
    have hl := congrArg List.length h
    rw [hq, stdRotate1_iterate_length] at hl
    simp only [List.length_nil] at hl
    omega
  have hb : borderCheck (ArucoMarker.rotate^[k] (ArucoMarker.fresh (canonicalGrid id) pts)).cells
      = true := by
    rw [hc]
    exact borderCheck_of_borderZero _ (borderZero_iterate k _ (canonicalGrid_borderZero id))
  obtain ⟨t1, t2, t3⟩ := canonical_first_zero id hid k hk _ rfl
  rw [← hc] at t2 t3
  obtain ⟨-, -, -, v4, -⟩ := validate_found _ hp hb _ t1 t2 t3
  rw [v4, hq, ← Function.iterate_add_apply]
  have four := stdRotate1_iterate_four pts hpts
  by_cases h : id = 1023
  · simp only [h, if_true, true_and]
    interval_cases k
    · rfl
    · rfl
    · rfl
    · exact four
  · simp only [h, if_false, false_and]
    interval_cases k
    · rfl
    · exact four
    · exact four
    · exact four

theorem corner_realignment_witness :
    (42 < 1024 ∧ [(0 : Nat), 1, 2, 3].length = 4 ∧ 3 < 4) ∧
    (ArucoMarker.validate
      (ArucoMarker.fresh (canonicalGrid 42) [(0 : Nat), 1, 2, 3])).2.projected = [0, 1, 2, 3] ∧
    (ArucoMarker.validate
      (ArucoMarker.rotate^[3]
        (ArucoMarker.fresh (canonicalGrid 42) [(0 : Nat), 1, 2, 3]))).2.projected
        = if 42 = 1023 ∧ (3 = 1 ∨ 3 = 2) then stdRotate1^[2] [(0 : Nat), 1, 2, 3]
          else [0, 1, 2, 3] :=
  ⟨⟨by decide, rfl, by decide⟩,
    corner_realignment 42 (by decide) [0, 1, 2, 3] rfl 3 (by decide)⟩

/-! ## C8: first-match acceptance -/

/-- C8 (first-match acceptance). For a marker with `rotation = 0` and at least one projected
point that passes the border loop, `validate` returns `true` exactly when one of the rotation
states `k = 0, 1, 2, 3` of the grid has `hammingDistance` zero; on success, for the least such
`k`, the stored grid is the input grid rotated `k` times, the rotation field is `k` (below 4),
`validated` is `true` and `id` is what `calculateID` returns on the stored grid. -/
theorem first_match_acceptance {P : Type} (m : ArucoMarker P) (hrot : m.rotation = 0)
    (hpts : 1 ≤ m.projected.length) (hborder : borderCheck m.cells = true) :
    ((ArucoMarker.validate m).1 = true ↔
      ∃ k, k < 4 ∧ (ArucoMarker.rotate^[k] m).hammingDistance = 0) ∧
    ((ArucoMarker.validate m).1 = true →
      ∃ k, k < 4 ∧ (ArucoMarker.rotate^[k] m).hammingDistance = 0 ∧
        (∀ j, j < k → (ArucoMarker.rotate^[j] m).hammingDistance ≠ 0) ∧
        (ArucoMarker.validate m).2.cells = (ArucoMarker.rotate^[k] m).cells ∧
        (ArucoMarker.validate m).2.rotation = (k : Int) ∧
        (ArucoMarker.validate m).2.validated = true ∧
        (ArucoMarker.validate m).2.id = ((ArucoMarker.validate m).2.calculateID).1) := by
  have hp : m.projected ≠ [] := by
    intro h
    rw [h] at hpts
    simp at hpts
  have hd : ∀ k, (ArucoMarker.rotate^[k] m).hammingDistance
      = cellsHammingDistance (rotateCells^[k] m.cells) := by
    intro k
    unfold ArucoMarker.hammingDistance
    rw [rotate_iterate_cells]
  simp only [hd, rotate_iterate_cells]
  have key : (ArucoMarker.validate m).1 = true →
      ∃ k, k < 4 ∧ cellsHammingDistance (rotateCells^[k] m.cells) = 0 ∧
        (∀ j, j < k → cellsHammingDistance (rotateCells^[j] m.cells) ≠ 0) ∧
        (ArucoMarker.validate m).2.cells = rotateCells^[k] m.cells ∧
        (ArucoMarker.validate m).2.rotation = (k : Int) ∧
        (ArucoMarker.validate m).2.validated = true ∧
        (ArucoMarker.validate m).2.id = ((ArucoMarker.validate m).2.calculateID).1 := by
    intro hv
    by_cases hex : ∃ k, k < 4 ∧ cellsHammingDistance (rotateCells^[k] m.cells) = 0
    · obtain ⟨k, hk, h0, hlt⟩ := exists_least_zero 4 m.cells hex
      obtain ⟨-, v2, v3, -, v5, v6⟩ := validate_found m hp hborder k hk h0 hlt
      refine ⟨k, hk, h0, hlt, v2, ?_, v6, ?_⟩
      · rw [v3, hrot, wrap32_incr_iterate k 0 (by decide) (by omega)]
        simp
      · rw [v5]
        unfold ArucoMarker.calculateID
        simp only []
        rw [v2]
    · have hn := validate_none m (fun j hj h0 => hex ⟨j, hj, h0⟩)
      rw [hn] at hv
      exact absurd hv (by decide)
  refine ⟨⟨?_, ?_⟩, key⟩
  · intro hv
    obtain ⟨k, hk, h0, -⟩ := key hv
    exact ⟨k, hk, h0⟩
  · intro hex
    obtain ⟨k, hk, h0, hlt⟩ := exists_least_zero 4 m.cells hex
    exact (validate_found m hp hborder k hk h0 hlt).1

theorem first_match_acceptance_witness :
    ((ArucoMarker.fresh (rotateCells (canonicalGrid 42)) [(0 : Nat), 1, 2, 3]).rotation = 0 ∧
      1 ≤ (ArucoMarker.fresh (rotateCells (canonicalGrid 42)) [(0 : Nat), 1, 2, 3]).projected.length
      ∧ borderCheck (ArucoMarker.fresh (rotateCells (canonicalGrid 42)) [(0 : Nat), 1, 2, 3]).cells
        = true) ∧
    (ArucoMarker.validate
      (ArucoMarker.fresh (rotateCells (canonicalGrid 42)) [(0 : Nat), 1, 2, 3])).1 = true :=
  ⟨⟨rfl, by decide, by decide⟩,
    ((first_match_acceptance
      (ArucoMarker.fresh (rotateCells (canonicalGrid 42)) [(0 : Nat), 1, 2, 3]) rfl
      (by decide) (by decide)).1).2 ⟨3, by decide, by decide⟩⟩

/-! ## C9: Hamming strictness -/

/-- C9 (Hamming strictness). Whenever none of the four rotation states of the grid has
`hammingDistance` zero, `validate` returns `false`; this covers every grid that differs in
one parity cell from a zero-distance grid and has no zero-distance rotation state. -/
theorem hamming_strictness {P : Type} (m : ArucoMarker P)
    (hnone : ∀ k, k < 4 → (ArucoMarker.rotate^[k] m).hammingDistance ≠ 0) :
    (ArucoMarker.validate m).1 = false := by
  apply validate_none
  intro j hj
  have := hnone j hj
  unfold ArucoMarker.hammingDistance at this
  rwa [rotate_iterate_cells] at this

theorem hamming_strictness_witness :
    (cellsHammingDistance (canonicalGrid 0) = 0 ∧
      ∀ k, k < 4 →
        (ArucoMarker.rotate^[k]
          (ArucoMarker.fresh (flipCell (canonicalGrid 0) 1 1) [(0 : Nat), 1, 2, 3])).hammingDistance
          ≠ 0) ∧
    (ArucoMarker.validate
      (ArucoMarker.fresh (flipCell (canonicalGrid 0) 1 1) [(0 : Nat), 1, 2, 3])).1 = false :=
  ⟨⟨by decide, by decide⟩,
    hamming_strictness (ArucoMarker.fresh (flipCell (canonicalGrid 0) 1 1) [(0 : Nat), 1, 2, 3])
      (by decide)⟩

/-! ## C10: identifier extraction -/

/-- C10 (identifier extraction). On a grid whose cells are all `0` or `1`, `calculateID`
returns the sum over rows `r = 1..5` of `cells[r][2] * 2^(11 - 2r) + cells[r][4] * 2^(10 - 2r)`
and the result lies in `0..1023`. -/
theorem calculateID_value {P : Type} (m : ArucoMarker P)
    (hbits : ∀ i j : Fin 7, m.cells i j = 0 ∨ m.cells i j = 1) :
    (m.calculateID).1 =
      (([1, 2, 3, 4, 5] : List (Fin 7)).map
        (fun r => m.cells r 2 * 2 ^ (11 - 2 * r.val) + m.cells r 4 * 2 ^ (10 - 2 * r.val))).sum ∧
    0 ≤ (m.calculateID).1 ∧ (m.calculateID).1 ≤ 1023 := by
  have e : (m.calculateID).1 = cellsID m.cells := rfl
  have v1 : ((1 : Fin 7) : Nat) = 1 := rfl
  have v2 : ((2 : Fin 7) : Nat) = 2 := rfl
  have v3 : ((3 : Fin 7) : Nat) = 3 := rfl
  have v4 : ((4 : Fin 7) : Nat) = 4 := rfl
  have v5 : ((5 : Fin 7) : Nat) = 5 := rfl
  rw [e, cellsID_eq m.cells (fun i _ _ => ⟨hbits i 2, hbits i 4⟩)]
  clear e
  simp only [List.map, List.sum_cons, List.sum_nil, v1, v2, v3, v4, v5]
  have bb : ∀ x : Int, x = 0 ∨ x = 1 → 0 ≤ x ∧ x ≤ 1 := by
    intro x hx
    omega
  have h12 := bb _ (hbits 1 2)
  have h14 := bb _ (hbits 1 4)
  have h22 := bb _ (hbits 2 2)
  have h24 := bb _ (hbits 2 4)
  have h32 := bb _ (hbits 3 2)
  have h34 := bb _ (hbits 3 4)
  have h42 := bb _ (hbits 4 2)
  have h44 := bb _ (hbits 4 4)
  have h52 := bb _ (hbits 5 2)
  have h54 := bb _ (hbits 5 4)
  clear v1 v2 v3 v4 v5 bb hbits
  norm_num
  omega

theorem calculateID_value_witness :
    (∀ i j : Fin 7, (ArucoMarker.fresh (canonicalGrid 42) [(0 : Nat)]).cells i j = 0 ∨
      (ArucoMarker.fresh (canonicalGrid 42) [(0 : Nat)]).cells i j = 1) ∧
    (((ArucoMarker.fresh (canonicalGrid 42) [(0 : Nat)]).calculateID).1 =
      (([1, 2, 3, 4, 5] : List (Fin 7)).map
        (fun r => (ArucoMarker.fresh (canonicalGrid 42) [(0 : Nat)]).cells r 2 * 2 ^ (11 - 2 * r.val)
          + (ArucoMarker.fresh (canonicalGrid 42) [(0 : Nat)]).cells r 4 * 2 ^ (10 - 2 * r.val))).sum
      ∧ 0 ≤ ((ArucoMarker.fresh (canonicalGrid 42) [(0 : Nat)]).calculateID).1
      ∧ ((ArucoMarker.fresh (canonicalGrid 42) [(0 : Nat)]).calculateID).1 ≤ 1023) :=
  ⟨by decide, calculateID_value (ArucoMarker.fresh (canonicalGrid 42) [(0 : Nat)]) (by decide)⟩

theorem int_xor_bits (a b : Int) (ha : a = 0 ∨ a = 1) (hb : b = 0 ∨ b = 1) :
    Int.xor a b = (a + b) % 2 := by
  rcases ha with rfl | rfl <;> rcases hb with rfl | rfl <;> decide

/-- The codeword condition on a row, in the words of the layout: all five cells are 0/1 and
the parity cells are functions of the payload cells. -/
theorem rowOK_iff_layout (c : Cells) (r : Fin 7) :
    RowOK c r ↔
      ((∀ k : Fin 7, k.val ≠ 0 → k.val ≠ 6 → c r k = 0 ∨ c r k = 1) ∧
        c r 1 = 1 - c r 2 ∧ c r 3 = c r 4 ∧ c r 5 = Int.xor (c r 2) (c r 4)) := by
  unfold RowOK
  constructor
  · rintro ⟨h2, h4, h1, h3, h5⟩
    refine ⟨?_, h1, h3, ?_⟩
    · intro k hk0 hk6
      have : k = 1 ∨ k = 2 ∨ k = 3 ∨ k = 4 ∨ k = 5 := by
        fin_cases k <;> simp at hk0 hk6 ⊢
      rcases this with rfl | rfl | rfl | rfl | rfl <;> omega
    · rw [int_xor_bits _ _ h2 h4]
      exact h5
  · rintro ⟨hb, h1, h3, h5⟩
    have h2 := hb 2 (by decide) (by decide)
    have h4 := hb 4 (by decide) (by decide)
    rw [int_xor_bits _ _ h2 h4] at h5
    exact ⟨h2, h4, h1, h3, h5⟩

/-- A zero-distance grid with given 0/1 payload cells: the parity cells are filled in from
the payload cells, everything outside the interior is zero. -/
theorem exists_zero_of_payload (p : Cells)
    (hp : ∀ r : Fin 7, r.val ≠ 0 → r.val ≠ 6 → (p r 2 = 0 ∨ p r 2 = 1) ∧ (p r 4 = 0 ∨ p r 4 = 1)) :
    ∃ g : Cells, cellsHammingDistance g = 0 ∧
      ∀ r : Fin 7, r.val ≠ 0 → r.val ≠ 6 → g r 2 = p r 2 ∧ g r 4 = p r 4 := by
  refine ⟨fun r k => if k = 1 then 1 - p r 2 else if k = 2 then p r 2 else if k = 3 then p r 4
    else if k = 4 then p r 4 else if k = 5 then (p r 2 + p r 4) % 2 else 0, ?_, ?_⟩
  · apply hamming_of_rowOK
    intro r h0 h6
    obtain ⟨h2, h4⟩ := hp r h0 h6
    unfold RowOK
    simp only [show ((2 : Fin 7) = 1) = False from by decide,
      show ((3 : Fin 7) = 1) = False from by decide, show ((3 : Fin 7) = 2) = False from by decide,
      show ((4 : Fin 7) = 1) = False from by decide, show ((4 : Fin 7) = 2) = False from by decide,
      show ((4 : Fin 7) = 3) = False from by decide, show ((5 : Fin 7) = 1) = False from by decide,
      show ((5 : Fin 7) = 2) = False from by decide, show ((5 : Fin 7) = 3) = False from by decide,
      show ((5 : Fin 7) = 4) = False from by decide, if_true, if_false]
    refine ⟨h2, h4, ?_, ?_, ?_⟩ <;> trivial
  · intro r _ _
    exact ⟨rfl, rfl⟩

/-- Two zero-distance grids with the same payload cells have the same interior. -/
theorem interior_unique_of_payload (g g' : Cells) (hg : cellsHammingDistance g = 0)
    (hg' : cellsHammingDistance g' = 0)
    (hp : ∀ r : Fin 7, r.val ≠ 0 → r.val ≠ 6 → g' r 2 = g r 2 ∧ g' r 4 = g r 4) :
    ∀ r k : Fin 7, r.val ≠ 0 → r.val ≠ 6 → k.val ≠ 0 → k.val ≠ 6 → g' r k = g r k := by
  intro r k hr0 hr6 hk0 hk6
  have a := rowOK_of_hamming g hg r hr0 hr6
  have b := rowOK_of_hamming g' hg' r hr0 hr6
  obtain ⟨e2, e4⟩ := hp r hr0 hr6
  unfold RowOK at a b
  have : k = 1 ∨ k = 2 ∨ k = 3 ∨ k = 4 ∨ k = 5 := by
    fin_cases k <;> simp at hk0 hk6 ⊢
  rcases this with rfl | rfl | rfl | rfl | rfl <;> omega

/-! ## C11: payload and parity layout -/

/-- C11 (payload/parity layout). The Hamming distance of a grid is 0 if and only if in every
interior row `r = 1..5` the five cells are 0/1, `cells[r][1] = 1 - cells[r][2]`,
`cells[r][3] = cells[r][4]` and `cells[r][5] = cells[r][2] XOR cells[r][4]`; and every 0/1
choice `p` of the ten payload cells (columns 2 and 4) is the payload of a zero-distance grid
whose interior is the only zero-distance interior with that payload. -/
theorem payload_parity_layout (c p : Cells)
    (hp : ∀ r : Fin 7, r.val ≠ 0 → r.val ≠ 6 → (p r 2 = 0 ∨ p r 2 = 1) ∧ (p r 4 = 0 ∨ p r 4 = 1)) :
    (cellsHammingDistance c = 0 ↔
      ∀ r : Fin 7, r.val ≠ 0 → r.val ≠ 6 →
        ((∀ k : Fin 7, k.val ≠ 0 → k.val ≠ 6 → c r k = 0 ∨ c r k = 1) ∧
          c r 1 = 1 - c r 2 ∧ c r 3 = c r 4 ∧ c r 5 = Int.xor (c r 2) (c r 4))) ∧
    (∃ g : Cells, cellsHammingDistance g = 0 ∧
      (∀ r : Fin 7, r.val ≠ 0 → r.val ≠ 6 → g r 2 = p r 2 ∧ g r 4 = p r 4) ∧
      ∀ g' : Cells, cellsHammingDistance g' = 0 →
        (∀ r : Fin 7, r.val ≠ 0 → r.val ≠ 6 → g' r 2 = p r 2 ∧ g' r 4 = p r 4) →
        ∀ r k : Fin 7, r.val ≠ 0 → r.val ≠ 6 → k.val ≠ 0 → k.val ≠ 6 → g' r k = g r k) := by
  constructor
  · constructor
    · intro h r h0 h6
      exact (rowOK_iff_layout c r).1 (rowOK_of_hamming c h r h0 h6)
    · intro h
      exact hamming_of_rowOK c (fun r h0 h6 => (rowOK_iff_layout c r).2 (h r h0 h6))
  · obtain ⟨g, hg, hgp⟩ := exists_zero_of_payload p hp
    refine ⟨g, hg, hgp, ?_⟩
    intro g' hg' hgp'
    apply interior_unique_of_payload g g' hg hg'
    intro r h0 h6
    obtain ⟨a2, a4⟩ := hgp r h0 h6
    obtain ⟨b2, b4⟩ := hgp' r h0 h6
    exact ⟨by rw [a2, b2], by rw [a4, b4]⟩

theorem payload_parity_layout_witness :
    (∀ r : Fin 7, r.val ≠ 0 → r.val ≠ 6 →
      (canonicalGrid 42 r 2 = 0 ∨ canonicalGrid 42 r 2 = 1) ∧
        (canonicalGrid 42 r 4 = 0 ∨ canonicalGrid 42 r 4 = 1)) ∧
    (cellsHammingDistance (flipCell (canonicalGrid 42) 3 5) = 0 ↔
      ∀ r : Fin 7, r.val ≠ 0 → r.val ≠ 6 →
        ((∀ k : Fin 7, k.val ≠ 0 → k.val ≠ 6 →
            flipCell (canonicalGrid 42) 3 5 r k = 0 ∨ flipCell (canonicalGrid 42) 3 5 r k = 1) ∧
          flipCell (canonicalGrid 42) 3 5 r 1 = 1 - flipCell (canonicalGrid 42) 3 5 r 2 ∧
          flipCell (canonicalGrid 42) 3 5 r 3 = flipCell (canonicalGrid 42) 3 5 r 4 ∧
          flipCell (canonicalGrid 42) 3 5 r 5
            = Int.xor (flipCell (canonicalGrid 42) 3 5 r 2) (flipCell (canonicalGrid 42) 3 5 r 4))) :=
  ⟨by decide,
    (payload_parity_layout (flipCell (canonicalGrid 42) 3 5) (canonicalGrid 42) (by decide)).1⟩

theorem stdRotate1_getElem? {P : Type} (l : List P) (hne : l ≠ []) (c : Nat)
    (hc : c < l.length) : (stdRotate1 l)[c]? = l[(c + 1) % l.length]? := by
  cases l with
  | nil => exact absurd rfl hne
  | cons p ps =>
    simp only [stdRotate1, List.length_cons] at hc ⊢
    by_cases h : c < ps.length
    · rw [List.getElem?_append_left h, Nat.mod_eq_of_lt (by omega), List.getElem?_cons_succ]
    · have e : c = ps.length := by omega
      subst e
      rw [Nat.mod_self, List.getElem?_append_right (le_refl _)]
      simp

/-! ## C12: the rotation operation -/

/-- C12, counterexample. On a marker whose rotation counter is `INT_MAX = 2147483647`,
`rotate` leaves the counter at `INT_MIN = -2147483648`, which is not one more than before. -/
theorem rotate_operation_counterexample :
    ({ ArucoMarker.fresh (canonicalGrid 42) [(10 : Nat), 11, 12, 13] with
        rotation := 2147483647 } : ArucoMarker Nat).projected ≠ [] ∧
    ({ ArucoMarker.fresh (canonicalGrid 42) [(10 : Nat), 11, 12, 13] with
        rotation := 2147483647 } : ArucoMarker Nat).rotate.rotation = -2147483648 ∧
    ({ ArucoMarker.fresh (canonicalGrid 42) [(10 : Nat), 11, 12, 13] with
        rotation := 2147483647 } : ArucoMarker Nat).rotate.rotation ≠ 2147483647 + 1 := by
  refine ⟨?_, ?_, ?_⟩ <;> decide

/-- C12, amended (rotation operation). For every marker with a non-empty projected sequence,
after `rotate` the cell at `(i, j)` is the old cell at `(6 - j, i)`, the rotation counter is
one more whenever it was an `int` below `INT_MAX = 2147483647`, the projected sequence has
the same length `n` and its entry `c` is the old entry `(c + 1) mod n`; and the cell at
corner `c` of the quad (corners `(0,0)`, `(6,0)`, `(6,6)`, `(0,6)`) is the old cell at corner
`(c + 1) mod 4`. -/
theorem rotate_operation {P : Type} (m : ArucoMarker P) (hne : m.projected ≠ []) :
    (∀ i j : Fin 7, m.rotate.cells i j = m.cells ⟨6 - j.val, by omega⟩ i) ∧
    (-2147483648 ≤ m.rotation → m.rotation < 2147483647 →
      m.rotate.rotation = m.rotation + 1) ∧
    m.rotate.projected.length = m.projected.length ∧
    (∀ c, c < m.projected.length →
      m.rotate.projected[c]? = m.projected[(c + 1) % m.projected.length]?) ∧
    (∀ c : Fin 4, m.rotate.cells (cornerCell c).1 (cornerCell c).2
      = m.cells (cornerCell (c + 1)).1 (cornerCell (c + 1)).2) := by
  refine ⟨?_, ?_, stdRotate1_length _, ?_, ?_⟩
  · intro i j
    show m.cells ⟨7 - j.val - 1, _⟩ i = _
    congr 1
    apply Fin.ext
    show 7 - j.val - 1 = 6 - j.val
    omega
  · intro hlo hhi
    show wrap32 (m.rotation + 1) = m.rotation + 1
    unfold wrap32
    omega
  · intro c hc
    exact stdRotate1_getElem? m.projected hne c hc
  · intro c
    fin_cases c <;> rfl

theorem rotate_operation_witness :
    (ArucoMarker.fresh (canonicalGrid 42) [(10 : Nat), 11, 12, 13]).projected ≠ [] ∧
    (ArucoMarker.fresh (canonicalGrid 42) [(10 : Nat), 11, 12, 13]).rotate.projected
      = [11, 12, 13, 10] ∧
    (ArucoMarker.fresh (canonicalGrid 42) [(10 : Nat), 11, 12, 13]).rotate.rotation = 0 + 1 :=
  ⟨by decide, by decide,
    (rotate_operation (ArucoMarker.fresh (canonicalGrid 42) [(10 : Nat), 11, 12, 13])
      (by decide)).2.1 (by decide) (by decide)⟩

/-! ## C13: zero-corner rejection -/

/-- C13 (zero-corner rejection). On a marker whose projected sequence is empty, `validate`
returns `false`, sets `validated` to `false` and leaves `cells`, `rotation` and `id` (and
the empty projected sequence) as they were. -/
theorem zero_corner_rejection {P : Type} (m : ArucoMarker P) (h : m.projected = []) :
    (ArucoMarker.validate m).1 = false ∧
    (ArucoMarker.validate m).2.validated = false ∧
    (ArucoMarker.validate m).2.cells = m.cells ∧
    (ArucoMarker.validate m).2.rotation = m.rotation ∧
    (ArucoMarker.validate m).2.id = m.id ∧
    (ArucoMarker.validate m).2.projected = [] := by
  have e : ArucoMarker.validate m = (false, { m with validated := false }) := by
    simp [ArucoMarker.validate, h]
  rw [e]
  exact ⟨rfl, rfl, rfl, rfl, rfl, h⟩

theorem zero_corner_rejection_witness :
    (ArucoMarker.fresh (canonicalGrid 42) ([] : List Nat)).projected = [] ∧
    (ArucoMarker.validate (ArucoMarker.fresh (canonicalGrid 42) ([] : List Nat))).1 = false ∧
    (ArucoMarker.validate (ArucoMarker.fresh (canonicalGrid 42) ([] : List Nat))).2.id = -1 :=
  ⟨rfl, (zero_corner_rejection (ArucoMarker.fresh (canonicalGrid 42) ([] : List Nat)) rfl).1,
    (zero_corner_rejection (ArucoMarker.fresh (canonicalGrid 42) ([] : List Nat)) rfl).2.2.2.2.1⟩

theorem validateLoop_verdict_cells {P : Type} (n : Nat) (m m' : ArucoMarker P)
    (h : m.cells = m'.cells) :
    (ArucoMarker.validateLoop n m).1 = (ArucoMarker.validateLoop n m').1 := by
  induction n generalizing m m' with
  | zero => rfl
  | succ n ih =>
    unfold ArucoMarker.validateLoop
    simp only [ArucoMarker.hammingDistance, h]
    split_ifs
    · rfl
    · apply ih
      show rotateCells m.cells = rotateCells m'.cells
      rw [h]

/-! ## C14: malformed candidates -/

/-- C14, counterexample. With a single projected point and the canonical grid of
identifier 0, `validate` returns `true`. -/
theorem malformed_candidate_counterexample :
    [(0 : Nat)].length < 4 ∧
    (ArucoMarker.validate (ArucoMarker.fresh (canonicalGrid 0) [(0 : Nat)])).1 = true := by
  decide

/-- C14, amended. With an empty projected sequence `validate` returns `false` whatever the
grid is; with at least one point (so also with 1, 2 or 3 points) `validate` returns what it
returns on the same marker with any other non-empty projected sequence, for instance one
of 4 points: the point check only rejects the empty sequence. -/
theorem malformed_candidate {P : Type} (m : ArucoMarker P) (pts : List P)
    (hm : m.projected ≠ []) (hpts : pts ≠ []) :
    (ArucoMarker.validate { m with projected := ([] : List P) }).1 = false ∧
    (ArucoMarker.validate { m with projected := pts }).1 = (ArucoMarker.validate m).1 := by
  constructor
  · simp [ArucoMarker.validate]
  · have h1 : m.projected.length ≠ 0 := fun h => hm (List.length_eq_zero.mp h)
    have h2 : pts.length ≠ 0 := fun h => hpts (List.length_eq_zero.mp h)
    unfold ArucoMarker.validate
    simp only [h1, h2, if_false]
    split_ifs
    · rfl
    · exact validateLoop_verdict_cells 4 _ _ rfl

theorem malformed_candidate_witness :
    ((ArucoMarker.fresh (canonicalGrid 0) [(0 : Nat), 1, 2, 3]).projected ≠ [] ∧
      [(7 : Nat)] ≠ []) ∧
    (ArucoMarker.validate
      { ArucoMarker.fresh (canonicalGrid 0) [(0 : Nat), 1, 2, 3] with projected := ([] : List Nat) }).1
        = false ∧
    (ArucoMarker.validate
      { ArucoMarker.fresh (canonicalGrid 0) [(0 : Nat), 1, 2, 3] with projected := [7] }).1
        = (ArucoMarker.validate (ArucoMarker.fresh (canonicalGrid 0) [(0 : Nat), 1, 2, 3])).1 :=
  ⟨⟨by decide, by decide⟩,
    malformed_candidate (ArucoMarker.fresh (canonicalGrid 0) [(0 : Nat), 1, 2, 3]) [7]
      (by decide) (by decide)⟩

theorem mismatch_triangle (x a b : Int) :
    (if a = b then 0 else 1) ≤ (if x = a then 0 else 1) + (if x = b then 0 else 1) := by
  split_ifs <;> omega

/-- The distance between two codewords is at most the sum of the distances of any row to
each of them. -/
theorem codewordDistance_le (c : Cells) (i : Fin 7) (a b : Fin 4) :
    codewordDistance a b ≤ rowSum c i a + rowSum c i b := by
  have t0 := mismatch_triangle (c i (0 : Fin 5).succ.castSucc) (ids a 0) (ids b 0)
  have t1 := mismatch_triangle (c i (1 : Fin 5).succ.castSucc) (ids a 1) (ids b 1)
  have t2 := mismatch_triangle (c i (2 : Fin 5).succ.castSucc) (ids a 2) (ids b 2)
  have t3 := mismatch_triangle (c i (3 : Fin 5).succ.castSucc) (ids a 3) (ids b 3)
  have t4 := mismatch_triangle (c i (4 : Fin 5).succ.castSucc) (ids a 4) (ids b 4)
  simp only [codewordDistance, rowSum, List.foldl]
  omega

theorem codewordDistance_ge_three (a b : Fin 4) (h : a ≠ b) : 3 ≤ codewordDistance a b := by
  revert a b
  decide

theorem rowMinSum_eq_one_of_rowSum (c : Cells) (i : Fin 7) (j : Fin 4) (h : rowSum c i j = 1) :
    rowMinSum c i = 1 := by
  have others : ∀ b : Fin 4, 1 ≤ rowSum c i b := by
    intro b
    by_cases hb : b = j
    · rw [hb, h]
    · have := codewordDistance_le c i b j
      have := codewordDistance_ge_three b j hb
      omega
  have o0 := others 0
  have o1 := others 1
  have o2 := others 2
  have o3 := others 3
  simp only [rowMinSum, List.foldl]
  fin_cases j <;> simp only [Fin.zero_eta, Fin.mk_one, Fin.reduceFinMk] at h <;>
    split_ifs <;> omega

/-! ## C18: separation of the reference codewords -/

/-- C18 (separation of the reference codewords). Any two distinct rows of the table `ids`
differ in at least 3 positions, and a grid row at distance exactly 1 from one row of the
table (`sum = 1` for that row) has minimum distance exactly 1 to the table
(`minSum = 1`): it matches no other codeword. -/
theorem codewords_separated (c : Cells) (i : Fin 7) (j : Fin 4) (h : rowSum c i j = 1) :
    (∀ a b : Fin 4, a ≠ b → 3 ≤ codewordDistance a b) ∧ rowMinSum c i = 1 ∧
      ∀ b : Fin 4, rowSum c i b ≠ 0 := by
  refine ⟨codewordDistance_ge_three, rowMinSum_eq_one_of_rowSum c i j h, ?_⟩
  intro b hb
  by_cases hj : b = j
  · rw [hj, h] at hb
    exact absurd hb (by decide)
  · have := codewordDistance_le c i b j
    have := codewordDistance_ge_three b j hj
    omega

theorem codewords_separated_witness :
    rowSum (flipCell (canonicalGrid 0) 1 3) 1 0 = 1 ∧
    ((∀ a b : Fin 4, a ≠ b → 3 ≤ codewordDistance a b) ∧
      rowMinSum (flipCell (canonicalGrid 0) 1 3) 1 = 1 ∧
      ∀ b : Fin 4, rowSum (flipCell (canonicalGrid 0) 1 3) 1 b ≠ 0) :=
  ⟨by decide, codewords_separated (flipCell (canonicalGrid 0) 1 3) 1 0 (by decide)⟩

theorem writeCell_some (cells : Cells) (r c : Nat) (v : Int) (hr : r < 7) (hc : c < 7) :
    ∃ cells1, writeCell cells r c v = some cells1 ∧
      ∀ a b : Fin 7, cells1 a b = if a.val = r ∧ b.val = c then v else cells a b := by
  refine ⟨_, dif_pos ⟨hr, hc⟩, ?_⟩
  intro a b
  simp only [Fin.ext_iff]

/-- The read loop over a list of in-range indices: every cell addressed by an index of the
list holds the value read at its row-major position, the other cells are untouched. -/
theorem readArucoDataLoop_spec (binary : Mat) (l : List Nat) (cells : Cells)
    (hl : ∀ i ∈ l, i / binary.cols < 7 ∧ i % binary.cols < 7) :
    ∃ cells1, ArucoDetector.readArucoDataLoop binary l cells = some cells1 ∧
      ∀ a b : Fin 7, cells1 a b =
        if ∃ i ∈ l, i / binary.cols = a.val ∧ i % binary.cols = b.val then
          (if binary.data (binary.cols * a.val + b.val) = 255 then 1 else 0)
        else cells a b := by
  induction l generalizing cells with
  | nil =>
    refine ⟨cells, rfl, ?_⟩
    intro a b
    simp
  | cons i rest ih =>
    obtain ⟨hi1, hi2⟩ := hl i (List.mem_cons_self _ _)
    obtain ⟨c1, hw, hc1⟩ := writeCell_some cells (i / binary.cols) (i % binary.cols)
      (if binary.data i = 255 then 1 else 0) hi1 hi2
    obtain ⟨c2, hr, hc2⟩ := ih c1 (fun k hk => hl k (List.mem_cons_of_mem _ hk))
    refine ⟨c2, ?_, ?_⟩
    · simp only [ArucoDetector.readArucoDataLoop, hw]
      exact hr
    · intro a b
      rw [hc2 a b, hc1 a b]
      by_cases hrest : ∃ k ∈ rest, k / binary.cols = a.val ∧ k % binary.cols = b.val
      · have : ∃ k ∈ i :: rest, k / binary.cols = a.val ∧ k % binary.cols = b.val := by
          obtain ⟨k, hk, hk2⟩ := hrest
          exact ⟨k, List.mem_cons_of_mem _ hk, hk2⟩
        rw [if_pos hrest, if_pos this]
      · rw [if_neg hrest]
        by_cases hi : i / binary.cols = a.val ∧ i % binary.cols = b.val
        · have : ∃ k ∈ i :: rest, k / binary.cols = a.val ∧ k % binary.cols = b.val :=
            ⟨i, List.mem_cons_self _ _, hi⟩
          have e : binary.cols * a.val + b.val = i := by
            rw [← hi.1, ← hi.2]
            exact Nat.div_add_mod i binary.cols
          rw [if_pos this, if_pos ⟨hi.1.symm, hi.2.symm⟩, e]
        · have : ¬ ∃ k ∈ i :: rest, k / binary.cols = a.val ∧ k % binary.cols = b.val := by
            rintro ⟨k, hk, hk2⟩
            rcases List.mem_cons.mp hk with rfl | hk
            · exact hi hk2
            · exact hrest ⟨k, hk, hk2⟩
          rw [if_neg this, if_neg (fun h => hi ⟨h.1.symm, h.2.symm⟩)]

/-! ## C17: grid extraction -/

/-- C17 (row-major grid extraction). For every 7x7 single-channel binary image,
`readArucoData` makes all its writes inside the cell array and returns a marker whose cell
`cells[r][c]` is 1 if the pixel at row `r`, column `c` is 255 and 0 otherwise, for all
`r`, `c` in `0..6`. -/
theorem readArucoData_row_major {P : Type} (binary : Mat) (hrows : binary.rows = 7)
    (hcols : binary.cols = 7) (init : Cells) :
    ∃ m : ArucoMarker P, ArucoDetector.readArucoData binary init = some m ∧
      ∀ r c : Fin 7, m.cells r c = if binary.pixel r.val c.val = 255 then 1 else 0 := by
  have hl : ∀ i ∈ List.range (binary.cols * binary.rows),
      i / binary.cols < 7 ∧ i % binary.cols < 7 := by
    intro i hi
    rw [hrows, hcols, List.mem_range] at hi
    rw [hcols]
    omega
  obtain ⟨c1, h1, h2⟩ := readArucoDataLoop_spec binary _ init hl
  refine ⟨ArucoMarker.fresh c1 [], ?_, ?_⟩
  · simp only [ArucoDetector.readArucoData, h1, Option.map_some']
  · intro r c
    show c1 r c = _
    have hex : ∃ i ∈ List.range (binary.cols * binary.rows),
        i / binary.cols = r.val ∧ i % binary.cols = c.val := by
      refine ⟨7 * r.val + c.val, ?_, ?_⟩
      · rw [hrows, hcols, List.mem_range]
        omega
      · rw [hcols]
        omega
    rw [h2 r c, if_pos hex, Mat.pixel, Nat.mul_comm]

theorem readArucoData_row_major_witness :
    ((Mat.mk 7 7 (fun i => if i % 2 = 0 then 255 else 0)).rows = 7 ∧
      (Mat.mk 7 7 (fun i => if i % 2 = 0 then 255 else 0)).cols = 7) ∧
    ∃ m : ArucoMarker Nat,
      ArucoDetector.readArucoData (Mat.mk 7 7 (fun i => if i % 2 = 0 then 255 else 0))
        (fun _ _ => 9) = some m ∧
      ∀ r c : Fin 7, m.cells r c =
        if (Mat.mk 7 7 (fun i => if i % 2 = 0 then 255 else 0)).pixel r.val c.val = 255 then 1
        else 0 :=
  ⟨⟨rfl, rfl⟩,
    @readArucoData_row_major Nat (Mat.mk 7 7 (fun i => if i % 2 = 0 then 255 else 0)) rfl rfl
      (fun _ _ => 9)⟩

theorem stdRotate1_eq_rotate {P : Type} (l : List P) : stdRotate1 l = l.rotate 1 := by
  cases l with
  | nil => rfl
  | cons p ps => simp [stdRotate1, List.rotate_cons_succ]

theorem stdRotate1_iterate_eq_rotate {P : Type} (k : Nat) (l : List P) :
    stdRotate1^[k] l = l.rotate k := by
  induction k with
  | zero => simp
  | succ n ih =>
    rw [Function.iterate_succ_apply', ih, stdRotate1_eq_rotate, List.rotate_rotate]

/-- The identifier computed on a zero-distance grid lies in `0..1023`. -/
theorem cellsID_range_of_zero (c : Cells) (h : cellsHammingDistance c = 0) :
    0 ≤ cellsID c ∧ cellsID c ≤ 1023 := by
  have hb : ∀ i : Fin 7, i.val ≠ 0 → i.val ≠ 6 →
      (c i 2 = 0 ∨ c i 2 = 1) ∧ (c i 4 = 0 ∨ c i 4 = 1) := by
    intro i h0 h6
    have r := rowOK_of_hamming c h i h0 h6
    exact ⟨r.1, r.2.1⟩
  rw [cellsID_eq c hb]
  have bb : ∀ x : Int, x = 0 ∨ x = 1 → 0 ≤ x ∧ x ≤ 1 := by
    intro x hx
    omega
  have h12 := bb _ (hb 1 (by decide) (by decide)).1
  have h14 := bb _ (hb 1 (by decide) (by decide)).2
  have h22 := bb _ (hb 2 (by decide) (by decide)).1
  have h24 := bb _ (hb 2 (by decide) (by decide)).2
  have h32 := bb _ (hb 3 (by decide) (by decide)).1
  have h34 := bb _ (hb 3 (by decide) (by decide)).2
  have h42 := bb _ (hb 4 (by decide) (by decide)).1
  have h44 := bb _ (hb 4 (by decide) (by decide)).2
  have h52 := bb _ (hb 5 (by decide) (by decide)).1
  have h54 := bb _ (hb 5 (by decide) (by decide)).2
  clear bb hb h
  omega

/-- What an accepting call of `validate` leaves in the marker. -/
theorem validate_true_elim {P : Type} (m : ArucoMarker P)
    (hv : (ArucoMarker.validate m).1 = true) :
    ∃ k, k < 4 ∧ cellsHammingDistance (rotateCells^[k] m.cells) = 0 ∧
      (ArucoMarker.validate m).2.cells = rotateCells^[k] m.cells ∧
      (ArucoMarker.validate m).2.rotation = (fun r : Int => wrap32 (r + 1))^[k] m.rotation ∧
      (ArucoMarker.validate m).2.projected = stdRotate1^[k] m.projected ∧
      (ArucoMarker.validate m).2.id = cellsID (rotateCells^[k] m.cells) ∧
      (ArucoMarker.validate m).2.validated = true := by
  by_cases hp : m.projected = []
  · have : (ArucoMarker.validate m).1 = false := by simp [ArucoMarker.validate, hp]
    rw [this] at hv
    exact absurd hv (by decide)
  · by_cases hb : borderCheck m.cells = true
    · by_cases hex : ∃ k, k < 4 ∧ cellsHammingDistance (rotateCells^[k] m.cells) = 0
      · obtain ⟨k, hk, h0, hlt⟩ := exists_least_zero 4 m.cells hex
        obtain ⟨-, v2, v3, v4, v5, v6⟩ := validate_found m hp hb k hk h0 hlt
        exact ⟨k, hk, h0, v2, v3, v4, v5, v6⟩
      · have hn := validate_none m (fun j hj h0 => hex ⟨j, hj, h0⟩)
        rw [hn] at hv
        exact absurd hv (by decide)
    · have hl : m.projected.length ≠ 0 := fun h => hp (List.length_eq_zero.mp h)
      have hbf : borderCheck m.cells = false := by
        cases hc : borderCheck m.cells
        · rfl
        · exact absurd hc hb
      have : (ArucoMarker.validate m).1 = false := by
        simp [ArucoMarker.validate, hl, hbf]
      rw [this] at hv
      exact absurd hv (by decide)

theorem getMarkersLoop_eq {P : Type} (candidates : List (List P × Cells))
    (markers : List (ArucoMarker P)) :
    ArucoDetector.getMarkersLoop candidates markers =
      markers ++ (candidates.filter
        (fun q => (ArucoMarker.validate (ArucoMarker.fresh q.2 q.1)).1)).map
        (fun q => (ArucoMarker.validate (ArucoMarker.fresh q.2 q.1)).2) := by
  induction candidates generalizing markers with
  | nil => simp [ArucoDetector.getMarkersLoop]
  | cons q rest ih =>
    obtain ⟨points, cells⟩ := q
    unfold ArucoDetector.getMarkersLoop
    by_cases h : (ArucoMarker.validate (ArucoMarker.fresh cells points)).1 = true
    · rw [if_pos h, ih, List.filter_cons_of_pos (by simpa using h)]
      simp
    · rw [if_neg h, ih, List.filter_cons_of_neg (by simpa using h)]

/-! ## C16: pipeline filtering -/

/-- C16 (pipeline filtering). On a list of candidates (4-point quad and 7x7 grid),
`getMarkers` returns the markers left by `validate` on exactly the candidates where
`validate` returns `true`, in candidate order and once each; every such marker has
`validated = true`, `hammingDistance() = 0`, an `id` in `0..1023` equal to what
`calculateID()` returns on its grid, and exactly 4 projected points that are a cyclic shift
of the quad's points. -/
theorem getMarkers_filtering {P : Type} (candidates : List (List P × Cells))
    (h4 : ∀ q ∈ candidates, q.1.length = 4) :
    ArucoDetector.getMarkers candidates =
      (candidates.filter (fun q => (ArucoMarker.validate (ArucoMarker.fresh q.2 q.1)).1)).map
        (fun q => (ArucoMarker.validate (ArucoMarker.fresh q.2 q.1)).2) ∧
    ∀ q ∈ candidates, (ArucoMarker.validate (ArucoMarker.fresh q.2 q.1)).1 = true →
      (ArucoMarker.validate (ArucoMarker.fresh q.2 q.1)).2.validated = true ∧
      (ArucoMarker.validate (ArucoMarker.fresh q.2 q.1)).2.hammingDistance = 0 ∧
      0 ≤ (ArucoMarker.validate (ArucoMarker.fresh q.2 q.1)).2.id ∧
      (ArucoMarker.validate (ArucoMarker.fresh q.2 q.1)).2.id ≤ 1023 ∧
      (ArucoMarker.validate (ArucoMarker.fresh q.2 q.1)).2.id =
        ((ArucoMarker.validate (ArucoMarker.fresh q.2 q.1)).2.calculateID).1 ∧
      (ArucoMarker.validate (ArucoMarker.fresh q.2 q.1)).2.projected.length = 4 ∧
      ∃ k, k < 4 ∧ (ArucoMarker.validate (ArucoMarker.fresh q.2 q.1)).2.projected
        = q.1.rotate k := by
  constructor
  · unfold ArucoDetector.getMarkers
    rw [getMarkersLoop_eq]
    simp
  · intro q hq hv
    obtain ⟨k, hk, h0, v2, -, v4, v5, v6⟩ := validate_true_elim _ hv
    have hpts : (ArucoMarker.fresh q.2 q.1).projected = q.1 := rfl
    have hcells : (ArucoMarker.fresh q.2 q.1 : ArucoMarker P).cells = q.2 := rfl
    rw [hpts] at v4
    rw [hcells] at v2 v5 h0
    have hr := cellsID_range_of_zero _ h0
    refine ⟨v6, ?_, ?_, ?_, ?_, ?_, k, hk, ?_⟩
    · unfold ArucoMarker.hammingDistance
      rw [v2]
      exact h0
    · rw [v5]
      exact hr.1
    · rw [v5]
      exact hr.2
    · unfold ArucoMarker.calculateID
      simp only []
      rw [v5, v2]
    · rw [v4, stdRotate1_iterate_length]
      exact h4 q hq
    · rw [v4, stdRotate1_iterate_eq_rotate]

theorem getMarkers_filtering_witness :
    (∀ q ∈ [([(0 : Nat), 1, 2, 3], rotateCells (canonicalGrid 42)),
        ([4, 5, 6, 7], flipCell (canonicalGrid 7) 1 1)], q.1.length = 4) ∧
    (ArucoDetector.getMarkers [([(0 : Nat), 1, 2, 3], rotateCells (canonicalGrid 42)),
        ([4, 5, 6, 7], flipCell (canonicalGrid 7) 1 1)]).map
      (fun m => (m.id, m.rotation, m.projected)) = [(42, 3, [3, 0, 1, 2])] :=
  ⟨by decide, by
    rw [(getMarkers_filtering [([(0 : Nat), 1, 2, 3], rotateCells (canonicalGrid 42)),
        ([4, 5, 6, 7], flipCell (canonicalGrid 7) 1 1)] (by decide)).1]
    decide⟩

section RegistryLemmas

variable {D : Type}

theorem eraseFirstId_filter_ne (id : Int) (l : List (Int × D)) :
    (ArucoNode.eraseFirstId id l).filter (fun e => decide (e.1 ≠ id))
      = l.filter (fun e => decide (e.1 ≠ id)) := by
  induction l with
  | nil => rfl
  | cons e rest ih =>
    unfold ArucoNode.eraseFirstId
    by_cases h : e.1 = id
    · rw [if_pos h, List.filter_cons_of_neg (by simpa using h)]
    · rw [if_neg h, List.filter_cons_of_pos (by simpa using h),
        List.filter_cons_of_pos (by simpa using h), ih]

theorem eraseFirstId_sublist (id : Int) (l : List (Int × D)) :
    (ArucoNode.eraseFirstId id l).Sublist l := by
  induction l with
  | nil => exact List.Sublist.slnil
  | cons e rest ih =>
    unfold ArucoNode.eraseFirstId
    by_cases h : e.1 = id
    · rw [if_pos h]
      exact List.sublist_cons_self e rest
    · rw [if_neg h]
      exact ih.cons₂ e

theorem eraseFirstId_not_mem (id : Int) (l : List (Int × D))
    (hd : (l.map Prod.fst).Nodup) : id ∉ (ArucoNode.eraseFirstId id l).map Prod.fst := by
  induction l with
  | nil => simp [ArucoNode.eraseFirstId]
  | cons e rest ih =>
    rw [List.map_cons, List.nodup_cons] at hd
    unfold ArucoNode.eraseFirstId
    by_cases h : e.1 = id
    · rw [if_pos h, ← h]
      exact hd.1
    · rw [if_neg h, List.map_cons, List.mem_cons]
      rintro (h1 | h1)
      · exact h h1.symm
      · exact ih hd.2 h1

theorem eraseFirstId_nodup (id : Int) (l : List (Int × D)) (hd : (l.map Prod.fst).Nodup) :
    ((ArucoNode.eraseFirstId id l).map Prod.fst).Nodup :=
  List.Nodup.sublist ((eraseFirstId_sublist id l).map Prod.fst) hd

theorem eraseFirstId_filter_eq (id : Int) (l : List (Int × D))
    (hd : (l.map Prod.fst).Nodup) :
    (ArucoNode.eraseFirstId id l).filter (fun e => decide (e.1 = id)) = [] := by
  rw [List.filter_eq_nil_iff]
  intro e he
  have hn := eraseFirstId_not_mem id l hd
  simp only [decide_eq_true_eq]
  intro h
  exact hn (List.mem_map.mpr ⟨e, he, h⟩)

theorem onMarkerRegister_nodup (known : List (Int × D)) (id : Int) (data : D)
    (hd : (known.map Prod.fst).Nodup) :
    ((ArucoNode.onMarkerRegister known id data).map Prod.fst).Nodup := by
  unfold ArucoNode.onMarkerRegister
  rw [List.map_append, List.nodup_append]
  refine ⟨eraseFirstId_nodup id known hd, by simp, ?_⟩
  intro a ha hb
  simp only [List.map_cons, List.map_nil, List.mem_singleton] at hb
  rw [hb] at ha
  exact eraseFirstId_not_mem id known hd ha

theorem applyCalls_nodup (known : List (Int × D)) (calls : List (ArucoNode.RegistryCall D))
    (hd : (known.map Prod.fst).Nodup) :
    ((ArucoNode.applyCalls known calls).map Prod.fst).Nodup := by
  unfold ArucoNode.applyCalls
  induction calls generalizing known with
  | nil => exact hd
  | cons call rest ih =>
    rw [List.foldl_cons]
    apply ih
    cases call with
    | register id data => exact onMarkerRegister_nodup known id data hd
    | remove id => exact eraseFirstId_nodup id known hd

end RegistryLemmas

/-! ## C20: known-marker registry -/

/-- C20 (known-marker registry). Starting from a registry with pairwise distinct ids, the
registry reached by any sequence of `onMarkerRegister` and `onMarkerRemove` calls has
pairwise distinct ids; a further `onMarkerRegister(id, data)` leaves exactly one entry with
that id, carrying the new data, and a further `onMarkerRemove(id)` leaves none; in both
cases the entries with other ids are the same, in the same order. -/
theorem registry_invariant {D : Type} (known : List (Int × D))
    (hd : (known.map Prod.fst).Nodup) (calls : List (ArucoNode.RegistryCall D)) (id : Int)
    (data : D) :
    ((ArucoNode.applyCalls known calls).map Prod.fst).Nodup ∧
    ((ArucoNode.onMarkerRegister (ArucoNode.applyCalls known calls) id data).filter
        (fun e => decide (e.1 = id)) = [(id, data)] ∧
      (ArucoNode.onMarkerRegister (ArucoNode.applyCalls known calls) id data).filter
        (fun e => decide (e.1 ≠ id))
        = (ArucoNode.applyCalls known calls).filter (fun e => decide (e.1 ≠ id))) ∧
    ((ArucoNode.onMarkerRemove (ArucoNode.applyCalls known calls) id).filter
        (fun e => decide (e.1 = id)) = [] ∧
      (ArucoNode.onMarkerRemove (ArucoNode.applyCalls known calls) id).filter
        (fun e => decide (e.1 ≠ id))
        = (ArucoNode.applyCalls known calls).filter (fun e => decide (e.1 ≠ id))) := by
  have hn := applyCalls_nodup known calls hd
  refine ⟨hn, ⟨?_, ?_⟩, ⟨?_, ?_⟩⟩
  · unfold ArucoNode.onMarkerRegister
    rw [List.filter_append, eraseFirstId_filter_eq id _ hn]
    simp
  · unfold ArucoNode.onMarkerRegister
    rw [List.filter_append, eraseFirstId_filter_ne]
    simp
  · exact eraseFirstId_filter_eq id _ hn
  · exact eraseFirstId_filter_ne id _

theorem registry_invariant_witness :
    ([((3 : Int), (10 : Nat)), (5, 20)].map Prod.fst).Nodup ∧
    ArucoNode.applyCalls [((3 : Int), (10 : Nat)), (5, 20)]
      [ArucoNode.RegistryCall.register 3 30, ArucoNode.RegistryCall.remove 5,
        ArucoNode.RegistryCall.register 8 40] = [(3, 30), (8, 40)] ∧
    ((ArucoNode.applyCalls [((3 : Int), (10 : Nat)), (5, 20)]
      [ArucoNode.RegistryCall.register 3 30, ArucoNode.RegistryCall.remove 5,
        ArucoNode.RegistryCall.register 8 40]).map Prod.fst).Nodup :=
  ⟨by decide, by decide,
    (registry_invariant [((3 : Int), (10 : Nat)), (5, 20)] (by decide)
      [ArucoNode.RegistryCall.register 3 30, ArucoNode.RegistryCall.remove 5,
        ArucoNode.RegistryCall.register 8 40] 3 50).1⟩

theorem rotationMatrix_zero {F : Type} [Field F] (cos sin : F → F) (hcos : cos 0 = 1)
    (hsin : sin 0 = 0) : Transformations.rotationMatrix cos sin ⟨0, 0, 0⟩ = 1 := by
  simp only [Transformations.rotationMatrix, hcos, hsin, neg_zero]
  have e : (!![1, 0, 0; 0, 1, 0; 0, 0, 1] : Matrix (Fin 3) (Fin 3) F) = 1 := by
    ext i j
    fin_cases i <;> fin_cases j <;> rfl
  rw [e, one_mul, one_mul]

/-! ## C19: world corner points -/

/-- C19, the code at the failing input. For size 2, position `(0, 0, 1)` and zero
orientation the four world points are `(-1, -1, -1)`, `(-1, 1, -1)`, `(1, 1, -1)`,
`(1, -1, -1)`: their `z` coordinate is `0 - 1`, not the `0 + 1` of the square translated by
the position. -/
theorem world_points_z_subtracted :
    ((ArucoMarkerInfo.calculateWorldPoints (fun x : ℚ => 1 - x * x / 2) (fun x : ℚ => x)
      ⟨7, 2, ⟨0, 0, 1⟩, ⟨0, 0, 0⟩, []⟩).world.map (fun w => (w.x, w.y, w.z)))
      = [(-1, -1, -1), (-1, 1, -1), (1, 1, -1), (1, -1, -1)] ∧
    ((ArucoMarkerInfo.calculateWorldPoints (fun x : ℚ => 1 - x * x / 2) (fun x : ℚ => x)
      ⟨7, 2, ⟨0, 0, 1⟩, ⟨0, 0, 0⟩, []⟩).world.map (fun w => w.z))
      ≠ [0 + 1, 0 + 1, 0 + 1, 0 + 1] := by
  have h := rotationMatrix_zero (fun x : ℚ => 1 - x * x / 2) (fun x : ℚ => x)
    (by norm_num) rfl
  simp only [ArucoMarkerInfo.calculateWorldPoints, h, one_mul]
  norm_num

/-- What `calculateWorldPoints` computes for every size and position. With zero Euler
orientation (and `cos 0 = 1`, `sin 0 = 0`) it yields exactly the 4 points
`(-s/2, -s/2, 0)`, `(-s/2, s/2, 0)`, `(s/2, s/2, 0)`, `(s/2, -s/2, 0)` with `p.x` added to
the first coordinate, `p.y` added to the second and `p.z` subtracted from the third: the
`x` and `y` coordinates are those of the translated square, the `z` coordinate is not. -/
theorem calculateWorldPoints_zero_rotation {F : Type} [Field F] (cos sin : F → F) (hcos : cos 0 = 1)
    (hsin : sin 0 = 0) (info : ArucoMarkerInfo F) (hrot : info.rotation = ⟨0, 0, 0⟩) :
    (ArucoMarkerInfo.calculateWorldPoints cos sin info).world =
      [⟨-(info.size / 2) + info.position.x, -(info.size / 2) + info.position.y,
          0 - info.position.z⟩,
        ⟨-(info.size / 2) + info.position.x, info.size / 2 + info.position.y,
          0 - info.position.z⟩,
        ⟨info.size / 2 + info.position.x, info.size / 2 + info.position.y,
          0 - info.position.z⟩,
        ⟨info.size / 2 + info.position.x, -(info.size / 2) + info.position.y,
          0 - info.position.z⟩] := by
  simp only [ArucoMarkerInfo.calculateWorldPoints, hrot, rotationMatrix_zero cos sin hcos hsin,
    one_mul, List.map]
  simp

theorem calculateWorldPoints_zero_rotation_example :
    ((fun x : ℚ => 1 - x * x / 2) 0 = 1 ∧ (fun x : ℚ => x) 0 = 0 ∧
      (ArucoMarkerInfo.mk 7 2 ⟨1, 2, 3⟩ ⟨0, 0, 0⟩ [] : ArucoMarkerInfo ℚ).rotation = ⟨0, 0, 0⟩) ∧
    (ArucoMarkerInfo.calculateWorldPoints (fun x : ℚ => 1 - x * x / 2) (fun x : ℚ => x)
      (ArucoMarkerInfo.mk 7 2 ⟨1, 2, 3⟩ ⟨0, 0, 0⟩ [])).world =
      [⟨-(2 / 2) + 1, -(2 / 2) + 2, 0 - 3⟩, ⟨-(2 / 2) + 1, 2 / 2 + 2, 0 - 3⟩,
        ⟨2 / 2 + 1, 2 / 2 + 2, 0 - 3⟩, ⟨2 / 2 + 1, -(2 / 2) + 2, 0 - 3⟩] :=
  ⟨⟨by norm_num, rfl, rfl⟩,
    calculateWorldPoints_zero_rotation (fun x : ℚ => 1 - x * x / 2) (fun x : ℚ => x)
      (by norm_num) rfl
      (ArucoMarkerInfo.mk 7 2 ⟨1, 2, 3⟩ ⟨0, 0, 0⟩ []) rfl⟩

/-- The corner test reads the cosines at `approx[1]`, `approx[2]` and `approx[3]` only. -/
theorem keepsQuad_iff {Pt F : Type} [LinearOrderedField F] (f : Pt → Pt → Pt → F)
    (approx : Fin 4 → Pt) (limitCosine : F) :
    SquareFinder.keepsQuad f approx limitCosine = true ↔
      0 < limitCosine ∧ |f (approx 2) (approx 0) (approx 1)| < limitCosine ∧
        |f (approx 3) (approx 1) (approx 2)| < limitCosine ∧
        |f (approx 0) (approx 2) (approx 3)| < limitCosine := by
  have hmax : ∀ a b : F, SquareFinder.MAX a b = max a b := by
    intro a b
    unfold SquareFinder.MAX
    split_ifs with h
    · exact (max_eq_right (le_of_lt h)).symm
    · exact (max_eq_left (not_lt.mp h)).symm
  have v0 : SquareFinder.vertexAt approx (4 % 4) = approx 0 := rfl
  have v1 : SquareFinder.vertexAt approx (2 - 1) = approx 1 := rfl
  have v2 : SquareFinder.vertexAt approx (2 % 4) = approx 2 := rfl
  have v3 : SquareFinder.vertexAt approx (3 % 4) = approx 3 := rfl
  have w0 : SquareFinder.vertexAt approx (2 - 2) = approx 0 := rfl
  have w1 : SquareFinder.vertexAt approx (3 - 2) = approx 1 := rfl
  have w2 : SquareFinder.vertexAt approx (3 - 1) = approx 2 := rfl
  have w3 : SquareFinder.vertexAt approx (4 - 2) = approx 2 := rfl
  have w4 : SquareFinder.vertexAt approx (4 - 1) = approx 3 := rfl
  simp only [SquareFinder.keepsQuad, SquareFinder.cornerLoop, hmax, v0, v1, v2, v3, w0, w1, w2,
    w3, w4, decide_eq_true_eq, max_lt_iff]
  tauto

/-- The table `kiteCos` holds the values of `angleCornerPointsCos` at the four corners of
`kite`, for a square root that is exact on the three perfect squares met and without the
constant `1e-12`. -/
theorem kiteCos_eq (sqrt : ℚ → ℚ) (h1 : sqrt 1874161 = 1369) (h2 : sqrt 308025 = 555)
    (h3 : sqrt 50625 = 225) :
    SquareFinder.angleCornerPointsCos sqrt 0 (kite 1) (kite 3) (kite 0)
      = kiteCos (kite 1) (kite 3) (kite 0) ∧
    SquareFinder.angleCornerPointsCos sqrt 0 (kite 2) (kite 0) (kite 1)
      = kiteCos (kite 2) (kite 0) (kite 1) ∧
    SquareFinder.angleCornerPointsCos sqrt 0 (kite 3) (kite 1) (kite 2)
      = kiteCos (kite 3) (kite 1) (kite 2) ∧
    SquareFinder.angleCornerPointsCos sqrt 0 (kite 0) (kite 2) (kite 3)
      = kiteCos (kite 0) (kite 2) (kite 3) := by
  have e0 : kite 0 = (0, 12) := rfl
  have e1 : kite 1 = (35, 24) := rfl
  have e2 : kite 2 = (44, 12) := rfl
  have e3 : kite 3 = (35, 0) := rfl
  simp only [e0, e1, e2, e3, SquareFinder.angleCornerPointsCos, kiteCos]
  norm_num [h1, h2, h3]

/-! ## C15: corner-angle filter -/

/-- C15, the code at the failing input. On the kite `(0,12)`, `(35,24)`, `(44,12)`, `(35,0)`
with `limitCosine = 0.6` the corner test keeps the quad although the absolute cosine at its
first vertex, `1081/1369`, is not below `0.6`: the loop `j = 2, 3, 4` computes the cosine at
the vertices 1, 2 and 3 and never at vertex 0. -/
theorem corner_filter_keeps_sharp_quad :
    SquareFinder.keepsQuad kiteCos kite (3 / 5) = true ∧
    (3 / 5 : ℚ) ≤ |kiteCos (kite 1) (kite 3) (kite 0)| := by
  constructor
  · rw [keepsQuad_iff]
    have e1 : kite 1 = (35, 24) := rfl
    have e2 : kite 2 = (44, 12) := rfl
    have e3 : kite 3 = (35, 0) := rfl
    simp only [kiteCos, e1, e2, e3]
    norm_num [abs_lt]
  · have e0 : kite 0 = (0, 12) := rfl
    simp only [kiteCos, e0]
    norm_num [abs_of_pos]

/-! ## C22: rotation states -/

/-- C22 (rotation states are unambiguous except for one pattern). A marker and the marker
after one `rotate` call never both have `hammingDistance` 0; and a marker with
`hammingDistance` 0 has `hammingDistance` 0 after two `rotate` calls if and only if every
interior row is `0, 1, 1, 1, 0`, in which case `calculateID` returns 1023. -/
theorem rotation_unambiguous {P : Type} (m : ArucoMarker P) :
    ¬ (m.hammingDistance = 0 ∧ m.rotate.hammingDistance = 0) ∧
    (m.hammingDistance = 0 →
      (m.rotate.rotate.hammingDistance = 0 ↔
        ∀ r : Fin 7, r.val ≠ 0 → r.val ≠ 6 →
          m.cells r 1 = 0 ∧ m.cells r 2 = 1 ∧ m.cells r 3 = 1 ∧ m.cells r 4 = 1 ∧
            m.cells r 5 = 0)) ∧
    (m.hammingDistance = 0 → m.rotate.rotate.hammingDistance = 0 →
      (m.calculateID).1 = 1023) := by
  refine ⟨?_, ?_, ?_⟩
  · rintro ⟨h0, h1⟩
    exact not_zero_rotate_of_zero m.cells h0 h1
  · intro h0
    constructor
    · intro h2
      exact pattern_of_zero_rot2 m.cells h0 h2
    · intro hp
      exact zero_rot2_of_pattern m.cells hp
  · intro h0 h2
    exact cellsID_of_pattern m.cells (pattern_of_zero_rot2 m.cells h0 h2)

/-! ## C24: failed validation -/

/-- C24, counterexample. On a 4-point marker whose rotation counter is
`INT_MAX = 2147483647`, four `rotate` calls leave the counter at `-2147483645`, not at 4 more
than before; and with a grid that the Hamming loop rejects, `validate` returns `false` and
leaves the same counter. -/
theorem failed_validation_restores_counterexample :
    ({ ArucoMarker.fresh (flipCell (canonicalGrid 0) 1 1) [(0 : Nat), 1, 2, 3] with
        rotation := 2147483647 } : ArucoMarker Nat).projected.length = 4 ∧
    (ArucoMarker.rotate^[4] ({ ArucoMarker.fresh (flipCell (canonicalGrid 0) 1 1)
        [(0 : Nat), 1, 2, 3] with rotation := 2147483647 } : ArucoMarker Nat)).rotation
      = -2147483645 ∧
    (ArucoMarker.validate ({ ArucoMarker.fresh (flipCell (canonicalGrid 0) 1 1)
        [(0 : Nat), 1, 2, 3] with rotation := 2147483647 } : ArucoMarker Nat)).1 = false ∧
    borderCheck (flipCell (canonicalGrid 0) 1 1) = true ∧
    (ArucoMarker.validate ({ ArucoMarker.fresh (flipCell (canonicalGrid 0) 1 1)
        [(0 : Nat), 1, 2, 3] with rotation := 2147483647 } : ArucoMarker Nat)).2.rotation
      = -2147483645 ∧
    (-2147483645 : Int) ≠ 2147483647 + 4 := by
  refine ⟨?_, ?_, ?_, ?_, ?_, ?_⟩ <;> decide

/-- C24, amended (failed validation restores the candidate). Four `rotate` calls leave the
cells and a 4-point projected sequence as they were, and raise `rotation` by 4 whenever the
counter is an `int` with `rotation + 4 <= INT_MAX = 2147483647`; when `validate` returns
`false` on a marker with 4 projected points, `cells`, `projected` and `id` are as before the
call, `validated` is `false`, and `rotation` is unchanged when the border loop rejected and,
under the same bound, 4 more than before when the Hamming loop rejected. -/
theorem failed_validation_restores {P : Type} (m : ArucoMarker P)
    (h4 : m.projected.length = 4) :
    ((ArucoMarker.rotate^[4] m).cells = m.cells ∧
      (ArucoMarker.rotate^[4] m).projected = m.projected ∧
      (-2147483648 ≤ m.rotation → m.rotation + 4 ≤ 2147483647 →
        (ArucoMarker.rotate^[4] m).rotation = m.rotation + 4)) ∧
    ((ArucoMarker.validate m).1 = false →
      (ArucoMarker.validate m).2.cells = m.cells ∧
      (ArucoMarker.validate m).2.projected = m.projected ∧
      (ArucoMarker.validate m).2.id = m.id ∧
      (ArucoMarker.validate m).2.validated = false ∧
      (borderCheck m.cells = false → (ArucoMarker.validate m).2.rotation = m.rotation) ∧
      (borderCheck m.cells = true → -2147483648 ≤ m.rotation →
        m.rotation + 4 ≤ 2147483647 →
        (ArucoMarker.validate m).2.rotation = m.rotation + 4)) := by
  have r4 : (ArucoMarker.rotate^[4] m).cells = m.cells ∧
      (ArucoMarker.rotate^[4] m).projected = m.projected ∧
      (-2147483648 ≤ m.rotation → m.rotation + 4 ≤ 2147483647 →
        (ArucoMarker.rotate^[4] m).rotation = m.rotation + 4) := by
    refine ⟨?_, ?_, ?_⟩
    · rw [rotate_iterate_cells, rotateCells_iterate_four]
    · rw [rotate_iterate_projected, stdRotate1_iterate_four _ h4]
    · intro hlo hhi
      rw [rotate_iterate_rotation, wrap32_incr_iterate 4 m.rotation hlo hhi]
      rfl
  refine ⟨r4, ?_⟩
  intro hv
  have hl : m.projected.length ≠ 0 := by omega
  have hp : m.projected ≠ [] := fun h => hl (List.length_eq_zero.mpr h)
  cases hb : borderCheck m.cells
  · have e : ArucoMarker.validate m = (false, { m with validated := false }) := by
      simp [ArucoMarker.validate, hl, hb]
    rw [e]
    exact ⟨rfl, rfl, rfl, rfl, fun _ => rfl, fun h => absurd h (by decide)⟩
  · have hnone : ∀ j, j < 4 → cellsHammingDistance (rotateCells^[j] m.cells) ≠ 0 := by
      intro j hj h0
      obtain ⟨k, hk, hk0, hlt⟩ := exists_least_zero 4 m.cells ⟨j, hj, h0⟩
      have := (validate_found m hp hb k hk hk0 hlt).1
      rw [hv] at this
      exact absurd this (by decide)
    have e : ArucoMarker.validate m
        = (false, ArucoMarker.rotate^[4] { m with validated := false }) := by
      rw [validate_eq_loop m hp hb]
      exact validateLoop_none 4 _ hnone
    rw [e]
    refine ⟨?_, ?_, ?_, ?_, fun h => absurd h (by decide), fun _ hlo hhi => ?_⟩
    · show (ArucoMarker.rotate^[4] { m with validated := false }).cells = m.cells
      rw [rotate_iterate_cells]
      exact rotateCells_iterate_four m.cells
    · show (ArucoMarker.rotate^[4] { m with validated := false }).projected = m.projected
      rw [rotate_iterate_projected]
      exact stdRotate1_iterate_four _ h4
    · exact (rotate_iterate_frame 4 { m with validated := false }).2.2.1
    · exact (rotate_iterate_frame 4 { m with validated := false }).2.2.2
    · show (ArucoMarker.rotate^[4] { m with validated := false }).rotation = m.rotation + 4
      rw [rotate_iterate_rotation]
      show (fun r : Int => wrap32 (r + 1))^[4] m.rotation = m.rotation + 4
      rw [wrap32_incr_iterate 4 m.rotation hlo hhi]
      rfl

theorem failed_validation_restores_witness :
    (ArucoMarker.fresh (flipCell (canonicalGrid 0) 1 1) [(0 : Nat), 1, 2, 3]).projected.length = 4 ∧
    (ArucoMarker.validate
      (ArucoMarker.fresh (flipCell (canonicalGrid 0) 1 1) [(0 : Nat), 1, 2, 3])).1 = false ∧
    (ArucoMarker.validate
      (ArucoMarker.fresh (flipCell (canonicalGrid 0) 1 1) [(0 : Nat), 1, 2, 3])).2.rotation = 4 ∧
    (ArucoMarker.rotate^[4]
      (ArucoMarker.fresh (flipCell (canonicalGrid 0) 1 1) [(0 : Nat), 1, 2, 3])).projected
      = [0, 1, 2, 3] ∧
    (ArucoMarker.rotate^[4]
      (ArucoMarker.fresh (flipCell (canonicalGrid 0) 1 1) [(0 : Nat), 1, 2, 3])).rotation
      = 0 + 4 :=
  ⟨rfl, by decide, by decide,
    (failed_validation_restores
      (ArucoMarker.fresh (flipCell (canonicalGrid 0) 1 1) [(0 : Nat), 1, 2, 3]) rfl).1.2.1,
    (failed_validation_restores
      (ArucoMarker.fresh (flipCell (canonicalGrid 0) 1 1) [(0 : Nat), 1, 2, 3]) rfl).1.2.2
      (by decide) (by decide)⟩

theorem interior_cases (i : Fin 7) (h0 : i.val ≠ 0) (h6 : i.val ≠ 6) :
    i = 1 ∨ i = 2 ∨ i = 3 ∨ i = 4 ∨ i = 5 := by
  fin_cases i <;> simp at h0 h6 ⊢

theorem rotateCells_row (c : Cells) (r : Fin 7) :
    rotateCells c r 1 = c 5 r ∧ rotateCells c r 2 = c 4 r ∧ rotateCells c r 3 = c 3 r ∧
      rotateCells c r 4 = c 2 r ∧ rotateCells c r 5 = c 1 r :=
  ⟨rfl, rfl, rfl, rfl, rfl⟩

/-- The interior rows of the half turn of a grid are the interior rows read backwards, in
reverse order. -/
theorem rotateCells_two_rows (c : Cells) (k : Fin 7) :
    rotateCells (rotateCells c) 1 k = c 5 ⟨6 - k.val, by omega⟩ ∧
    rotateCells (rotateCells c) 2 k = c 4 ⟨6 - k.val, by omega⟩ ∧
    rotateCells (rotateCells c) 3 k = c 3 ⟨6 - k.val, by omega⟩ ∧
    rotateCells (rotateCells c) 4 k = c 2 ⟨6 - k.val, by omega⟩ ∧
    rotateCells (rotateCells c) 5 k = c 1 ⟨6 - k.val, by omega⟩ := by
  refine ⟨?_, ?_, ?_, ?_, ?_⟩ <;> rw [rotateCells_two] <;> rfl

/-- A quarter turn of a zero-distance grid with one interior cell flipped never has
distance zero. -/
theorem not_zero_rotate_flip (c : Cells) (h : cellsHammingDistance c = 0) (i j : Fin 7)
    (hi0 : i.val ≠ 0) (hi6 : i.val ≠ 6) (hj0 : j.val ≠ 0) (hj6 : j.val ≠ 6) :
    cellsHammingDistance (rotateCells (flipCell c i j)) ≠ 0 := by
  intro h1
  rw [cellsHammingDistance_eq_zero_iff_rowOK] at h h1
  obtain ⟨a1, a2, a3, a4, a5⟩ := h
  obtain ⟨b1, b2, b3, b4, b5⟩ := h1
  unfold RowOK at a1 a2 a3 a4 a5 b1 b2 b3 b4 b5
  simp only [rotateCells_row] at b1 b2 b3 b4 b5
  rcases interior_cases i hi0 hi6 with rfl | rfl | rfl | rfl | rfl <;>
    rcases interior_cases j hj0 hj6 with rfl | rfl | rfl | rfl | rfl <;>
    simp only [flipCell, Fin.reduceEq, and_false, and_true, and_self, if_false, if_true]
      at b1 b2 b3 b4 b5 <;>
    omega

theorem flipCell_flipCell (c : Cells) (i j : Fin 7) : flipCell (flipCell c i j) i j = c := by
  funext a b
  unfold flipCell
  split_ifs <;> omega

theorem rotateCells_flipCell (c : Cells) (i j : Fin 7) :
    rotateCells (flipCell c i j) = flipCell (rotateCells c) j ⟨6 - i.val, by omega⟩ := by
  funext a b
  simp only [rotateCells, flipCell]
  have e : ((⟨7 - b.val - 1, by omega⟩ : Fin 7) = i ∧ a = j) ↔
      (a = j ∧ b = (⟨6 - i.val, by omega⟩ : Fin 7)) := by
    simp only [Fin.ext_iff]
    omega
  by_cases hc : (⟨7 - b.val - 1, by omega⟩ : Fin 7) = i ∧ a = j
  · rw [if_pos hc, if_pos (e.mp hc)]
  · rw [if_neg hc, if_neg (fun h => hc (e.mpr h))]

/-- Three quarter turns of a zero-distance grid with one interior cell flipped never have
distance zero: one more turn would give the flipped grid back. -/
theorem not_zero_rotate3_flip (c : Cells) (h : cellsHammingDistance c = 0) (i j : Fin 7)
    (hi0 : i.val ≠ 0) (hi6 : i.val ≠ 6) (hj0 : j.val ≠ 0) (hj6 : j.val ≠ 6) :
    cellsHammingDistance (rotateCells^[3] (flipCell c i j)) ≠ 0 := by
  intro h3
  have key := not_zero_rotate_flip (rotateCells^[3] (flipCell c i j)) h3
    ⟨6 - j.val, by omega⟩ i (by simp only []; omega) (by simp only []; omega) hi0 hi6
  apply key
  rw [rotateCells_flipCell]
  have e4 : rotateCells (rotateCells^[3] (flipCell c i j)) = flipCell c i j :=
    rotateCells_iterate_four (flipCell c i j)
  have ej : (⟨6 - (⟨6 - j.val, by omega⟩ : Fin 7).val, by omega⟩ : Fin 7) = j := by
    apply Fin.ext
    simp only []
    omega
  rw [e4, ej, flipCell_flipCell]
  exact h

theorem rowMinSum_flip_other (c : Cells) (i j r : Fin 7) (h : r ≠ i) :
    rowMinSum (flipCell c i j) r = rowMinSum c r := by
  simp only [rowMinSum, rowSum, flipCell, h, false_and, if_false]

theorem rowMinSum_flip_same (c : Cells) (i j : Fin 7) (hj0 : j.val ≠ 0) (hj6 : j.val ≠ 6)
    (h : rowMinSum c i = 0) : rowMinSum (flipCell c i j) i = 1 := by
  obtain ⟨w, hw⟩ := (rowMinSum_eq_zero_iff c i).1 h
  apply rowMinSum_eq_one_of_rowSum _ i w
  obtain ⟨h1, h2, h3, h4, h5⟩ := (rowSum_eq_zero_iff c i w).1 hw
  have e1 : ((0 : Fin 5).succ.castSucc : Fin 7) = 1 := rfl
  have e2 : ((1 : Fin 5).succ.castSucc : Fin 7) = 2 := rfl
  have e3 : ((2 : Fin 5).succ.castSucc : Fin 7) = 3 := rfl
  have e4 : ((3 : Fin 5).succ.castSucc : Fin 7) = 4 := rfl
  have e5 : ((4 : Fin 5).succ.castSucc : Fin 7) = 5 := rfl
  rcases interior_cases j hj0 hj6 with rfl | rfl | rfl | rfl | rfl <;>
    simp only [rowSum, List.foldl, e1, e2, e3, e4, e5, flipCell, true_and, Fin.reduceEq,
      if_false, if_true] <;>
    split_ifs <;> omega

/-- Flipping one interior cell of a zero-distance grid gives a grid at distance exactly 1. -/
theorem hamming_flip_eq_one (c : Cells) (h : cellsHammingDistance c = 0) (i j : Fin 7)
    (hi0 : i.val ≠ 0) (hi6 : i.val ≠ 6) (hj0 : j.val ≠ 0) (hj6 : j.val ≠ 6) :
    cellsHammingDistance (flipCell c i j) = 1 := by
  obtain ⟨a1, a2, a3, a4, a5⟩ := (cellsHammingDistance_eq_zero_iff c).1 h
  simp only [cellsHammingDistance, List.foldl]
  rcases interior_cases i hi0 hi6 with rfl | rfl | rfl | rfl | rfl
  · rw [rowMinSum_flip_same c 1 j hj0 hj6 a1, rowMinSum_flip_other c 1 j 2 (by decide),
      rowMinSum_flip_other c 1 j 3 (by decide), rowMinSum_flip_other c 1 j 4 (by decide),
      rowMinSum_flip_other c 1 j 5 (by decide), a2, a3, a4, a5]
  · rw [rowMinSum_flip_same c 2 j hj0 hj6 a2, rowMinSum_flip_other c 2 j 1 (by decide),
      rowMinSum_flip_other c 2 j 3 (by decide), rowMinSum_flip_other c 2 j 4 (by decide),
      rowMinSum_flip_other c 2 j 5 (by decide), a1, a3, a4, a5]
  · rw [rowMinSum_flip_same c 3 j hj0 hj6 a3, rowMinSum_flip_other c 3 j 1 (by decide),
      rowMinSum_flip_other c 3 j 2 (by decide), rowMinSum_flip_other c 3 j 4 (by decide),
      rowMinSum_flip_other c 3 j 5 (by decide), a1, a2, a4, a5]
  · rw [rowMinSum_flip_same c 4 j hj0 hj6 a4, rowMinSum_flip_other c 4 j 1 (by decide),
      rowMinSum_flip_other c 4 j 2 (by decide), rowMinSum_flip_other c 4 j 3 (by decide),
      rowMinSum_flip_other c 4 j 5 (by decide), a1, a2, a3, a5]
  · rw [rowMinSum_flip_same c 5 j hj0 hj6 a5, rowMinSum_flip_other c 5 j 1 (by decide),
      rowMinSum_flip_other c 5 j 2 (by decide), rowMinSum_flip_other c 5 j 3 (by decide),
      rowMinSum_flip_other c 5 j 4 (by decide), a1, a2, a3, a4]

/-- The half turn of a grid has distance zero exactly when every interior row of the grid,
read backwards, is a codeword. -/
theorem zero_rot2_iff_rowRevOK (c : Cells) :
    cellsHammingDistance (rotateCells (rotateCells c)) = 0 ↔
      ∀ r : Fin 7, r.val ≠ 0 → r.val ≠ 6 → RowRevOK c r := by
  have e1 : (⟨6 - ((1 : Fin 7) : Nat), by decide⟩ : Fin 7) = 5 := rfl
  have e2 : (⟨6 - ((2 : Fin 7) : Nat), by decide⟩ : Fin 7) = 4 := rfl
  have e3 : (⟨6 - ((3 : Fin 7) : Nat), by decide⟩ : Fin 7) = 3 := rfl
  have e4 : (⟨6 - ((4 : Fin 7) : Nat), by decide⟩ : Fin 7) = 2 := rfl
  have e5 : (⟨6 - ((5 : Fin 7) : Nat), by decide⟩ : Fin 7) = 1 := rfl
  rw [cellsHammingDistance_eq_zero_iff_rowOK]
  unfold RowOK
  simp only [rotateCells_two_rows, e1, e2, e3, e4, e5]
  constructor
  · rintro ⟨b1, b2, b3, b4, b5⟩ r hr0 hr6
    rcases interior_cases r hr0 hr6 with rfl | rfl | rfl | rfl | rfl
    · exact b5
    · exact b4
    · exact b3
    · exact b2
    · exact b1
  · intro hall
    exact ⟨hall 5 (by decide) (by decide), hall 4 (by decide) (by decide),
      hall 3 (by decide) (by decide), hall 2 (by decide) (by decide),
      hall 1 (by decide) (by decide)⟩

theorem rowRevOK_of_rowOK_iff (c : Cells) (r : Fin 7) (h : RowOK c r) :
    RowRevOK c r ↔ (c r 1 = 0 ∧ c r 2 = 1 ∧ c r 3 = 1 ∧ c r 4 = 1 ∧ c r 5 = 0) := by
  unfold RowOK at h
  unfold RowRevOK
  omega

theorem rowRevOK_flip_other (c : Cells) (i j r : Fin 7) (h : r ≠ i) :
    RowRevOK (flipCell c i j) r ↔ RowRevOK c r := by
  simp only [RowRevOK, flipCell, h, false_and, if_false]

theorem rowRevOK_flip_same (c : Cells) (i j : Fin 7) (hj0 : j.val ≠ 0) (hj6 : j.val ≠ 6)
    (h : RowOK c i) :
    RowRevOK (flipCell c i j) i ↔
      ((flipCell c i j i 1 = 0 ∧ flipCell c i j i 2 = 0 ∧ flipCell c i j i 3 = 0 ∧
          flipCell c i j i 4 = 0 ∧ flipCell c i j i 5 = 1) ∨
        (flipCell c i j i 1 = 1 ∧ flipCell c i j i 2 = 0 ∧ flipCell c i j i 3 = 0 ∧
          flipCell c i j i 4 = 1 ∧ flipCell c i j i 5 = 0)) := by
  unfold RowOK at h
  unfold RowRevOK
  rcases interior_cases j hj0 hj6 with rfl | rfl | rfl | rfl | rfl <;>
    simp only [flipCell, true_and, Fin.reduceEq, if_false, if_true] <;>
    omega

/-- The half turn of a zero-distance grid with one interior cell flipped has distance zero
exactly for the exceptional grids. -/
theorem zero_rot2_flip_iff (c : Cells) (h : cellsHammingDistance c = 0) (i j : Fin 7)
    (hi0 : i.val ≠ 0) (hi6 : i.val ≠ 6) (hj0 : j.val ≠ 0) (hj6 : j.val ≠ 6) :
    cellsHammingDistance (rotateCells (rotateCells (flipCell c i j))) = 0 ↔
      HalfTurnException (flipCell c i j) i := by
  rw [zero_rot2_iff_rowRevOK]
  unfold HalfTurnException
  have hother : ∀ r : Fin 7, r.val ≠ 0 → r.val ≠ 6 → r ≠ i →
      (RowRevOK (flipCell c i j) r ↔
        (flipCell c i j r 1 = 0 ∧ flipCell c i j r 2 = 1 ∧ flipCell c i j r 3 = 1 ∧
          flipCell c i j r 4 = 1 ∧ flipCell c i j r 5 = 0)) := by
    intro r hr0 hr6 hne
    rw [rowRevOK_flip_other c i j r hne,
      rowRevOK_of_rowOK_iff c r (rowOK_of_hamming c h r hr0 hr6)]
    simp only [flipCell, hne, false_and, if_false]
  have hsame := rowRevOK_flip_same c i j hj0 hj6 (rowOK_of_hamming c h i hi0 hi6)
  constructor
  · intro hall
    exact ⟨fun r hr0 hr6 hne => (hother r hr0 hr6 hne).1 (hall r hr0 hr6),
      hsame.1 (hall i hi0 hi6)⟩
  · rintro ⟨h1, h2⟩ r hr0 hr6
    by_cases hne : r = i
    · rw [hne]
      exact hsame.2 h2
    · exact (hother r hr0 hr6 hne).2 (h1 r hr0 hr6 hne)

/-! ## C23: single-bit errors -/

/-- C23, counterexample. The canonical grid of identifier 255 (row 1 is `1, 0, 0, 0, 0`, the
other interior rows are `0, 1, 1, 1, 0`) has distance 0; with its cell `(1, 4)` flipped it
has distance 1, its half turn has distance 0, and `validate` accepts it, as identifier
1022 with rotation 2. -/
theorem single_bit_error_counterexample :
    cellsHammingDistance (canonicalGrid 255) = 0 ∧
    cellsHammingDistance (flipCell (canonicalGrid 255) 1 4) = 1 ∧
    cellsHammingDistance (rotateCells^[2] (flipCell (canonicalGrid 255) 1 4)) = 0 ∧
    (ArucoMarker.validate
      (ArucoMarker.fresh (flipCell (canonicalGrid 255) 1 4) [(0 : Nat), 1, 2, 3])).1 = true ∧
    (ArucoMarker.validate
      (ArucoMarker.fresh (flipCell (canonicalGrid 255) 1 4) [(0 : Nat), 1, 2, 3])).2.id = 1022 ∧
    (ArucoMarker.validate
      (ArucoMarker.fresh (flipCell (canonicalGrid 255) 1 4) [(0 : Nat), 1, 2, 3])).2.rotation
        = 2 := by
  decide

/-- C23, amended. For every marker with `hammingDistance` 0 and every interior cell
`(i, j)`, the marker with that cell flipped has `hammingDistance` exactly 1; after one or
three `rotate` calls its distance is not 0; after two it is 0 exactly when every other
interior row is `0, 1, 1, 1, 0` and the flipped row is `0, 0, 0, 0, 1` or `1, 0, 0, 1, 0`;
in every other case `validate` returns `false` on it. -/
theorem single_bit_error {P : Type} (m : ArucoMarker P) (i j : Fin 7) (hi0 : i.val ≠ 0)
    (hi6 : i.val ≠ 6) (hj0 : j.val ≠ 0) (hj6 : j.val ≠ 6) (h : m.hammingDistance = 0) :
    ({ m with cells := flipCell m.cells i j } : ArucoMarker P).hammingDistance = 1 ∧
    (ArucoMarker.rotate^[1]
      ({ m with cells := flipCell m.cells i j } : ArucoMarker P)).hammingDistance ≠ 0 ∧
    (ArucoMarker.rotate^[3]
      ({ m with cells := flipCell m.cells i j } : ArucoMarker P)).hammingDistance ≠ 0 ∧
    ((ArucoMarker.rotate^[2]
      ({ m with cells := flipCell m.cells i j } : ArucoMarker P)).hammingDistance = 0 ↔
        HalfTurnException (flipCell m.cells i j) i) ∧
    (¬ HalfTurnException (flipCell m.cells i j) i →
      (ArucoMarker.validate
        ({ m with cells := flipCell m.cells i j } : ArucoMarker P)).1 = false) := by
  have hc : cellsHammingDistance m.cells = 0 := h
  have d0 := hamming_flip_eq_one m.cells hc i j hi0 hi6 hj0 hj6
  have d1 := not_zero_rotate_flip m.cells hc i j hi0 hi6 hj0 hj6
  have d2 := zero_rot2_flip_iff m.cells hc i j hi0 hi6 hj0 hj6
  have d3 := not_zero_rotate3_flip m.cells hc i j hi0 hi6 hj0 hj6
  simp only [ArucoMarker.hammingDistance, rotate_iterate_cells]
  refine ⟨d0, d1, d3, d2, ?_⟩
  intro hex
  apply validate_none
  intro k hk
  show cellsHammingDistance (rotateCells^[k] (flipCell m.cells i j)) ≠ 0
  interval_cases k
  · rw [Function.iterate_zero, id_eq, d0]
    decide
  · exact d1
  · exact fun h2 => hex (d2.1 h2)
  · exact d3

theorem single_bit_error_witness :
    (((3 : Fin 7).val ≠ 0 ∧ (3 : Fin 7).val ≠ 6 ∧ (2 : Fin 7).val ≠ 0 ∧ (2 : Fin 7).val ≠ 6) ∧
      (ArucoMarker.fresh (canonicalGrid 42) [(0 : Nat), 1, 2, 3]).hammingDistance = 0 ∧
      ¬ HalfTurnException (flipCell (canonicalGrid 42) 3 2) 3) ∧
    (ArucoMarker.validate
      ({ ArucoMarker.fresh (canonicalGrid 42) [(0 : Nat), 1, 2, 3] with
        cells := flipCell (canonicalGrid 42) 3 2 } : ArucoMarker Nat)).1 = false :=
  ⟨⟨by decide, by decide, by
      intro hex
      have := (hex.1 1 (by decide) (by decide) (by decide)).1
      revert this
      decide⟩,
    (single_bit_error (ArucoMarker.fresh (canonicalGrid 42) [(0 : Nat), 1, 2, 3]) 3 2
      (by decide) (by decide) (by decide) (by decide) (by decide)).2.2.2.2 (by
        intro hex
        have := (hex.1 1 (by decide) (by decide) (by decide)).1
        revert this
        decide)⟩

/-! ## C21: stringToDoubleArray -/

/-- C21, the code at the failing input. With a 32-bit `size_t`, on `"0_1_2_3"` with
delimiter `"_"` and `count = 4` the array keeps its old content at index 3 (here 9): the
loop stops when no delimiter is left and the last token is never stored. -/
theorem last_token_not_stored :
    ArucoNode.stringToDoubleArray 32 ArucoNode.stodDigits
      ['0', '_', '1', '_', '2', '_', '3'] [9, 9, 9, 9] 4 ['_'] = some [0, 1, 2, 9] := by
  decide

/-- With a 64-bit `size_t` the value stored in `pos` is `2 ^ 32 - 1` when `find` returns
`string::npos`, the loop test stays true, and the rest of the string is stored as the
last token. -/
theorem last_token_stored_lp64 :
    ArucoNode.stringToDoubleArray 64 ArucoNode.stodDigits
      ['0', '_', '1', '_', '2', '_', '3'] [9, 9, 9, 9] 4 ['_'] = some [0, 1, 2, 3] := by
  decide

/-- With a 64-bit `size_t` and fewer tokens than `count`, `stod` is called on the empty
string and throws. -/
theorem missing_token_throws_lp64 :
    ArucoNode.stringToDoubleArray 64 ArucoNode.stodDigits
      ['0', '_', '1'] [9, 9, 9, 9] 4 ['_'] = none := by
  decide

end Aruco
